import Mathlib

/-!
Contact submission pipeline (`api/contactApi.js`)

A shallow embedding of the request handler of `api/contactApi.js` and of the
functions it is built from: the Joi validation schema, `dbConnect`,
`sendMailWithRetry`, the Zoho token cache, `createZohoContact` and `handler`.

External collaborators (the Joi email grammar, `mongoose.connect`, the mail
transporter, the Zoho endpoints, the clock) are passed in as parameters, so
every theorem quantifies over all of their behaviours.
-/

namespace Azalya

/-! ## JavaScript values and strings -/

/-- A JavaScript value as far as the validator can tell values apart:
`undefined`, `null`, a string (a sequence of Unicode characters), or anything
else (number, boolean, object). -/
inductive JsVal where
  | undefined
  | null
  | str (s : String)
  | other
  deriving DecidableEq, Repr

/-- The `length` of a JavaScript string: the number of UTF-16 code units. -/
def jsLength (s : String) : Nat :=
  (s.data.map (fun c => if c.toNat < 65536 then 1 else 2)).sum

/-- JavaScript truthiness of a string: every string but the empty one. -/
def truthy (s : String) : Bool := s != ""

/-- The characters matched by `\s` in a JavaScript regular expression, which are
also the characters removed by `String.prototype.trim`. -/
def isJsSpace (c : Char) : Bool :=
  let n := c.toNat
  n == 9 || n == 10 || n == 11 || n == 12 || n == 13 || n == 32 || n == 160 ||
  n == 5760 || (8192 ≤ n && n ≤ 8202) || n == 8232 || n == 8233 || n == 8239 ||
  n == 8287 || n == 12288 || n == 65279

/-- The characters matched by `\d`. -/
def isJsDigit (c : Char) : Bool := 48 ≤ c.toNat && c.toNat ≤ 57

/-! ## Regular expressions (the fragment used by the schema) -/

/-- Regular expressions: a literal character, a character class, `r?`,
`r{lo,hi}` and concatenation. -/
inductive Re where
  | lit (c : Char)
  | cls (p : Char → Bool)
  | opt (r : Re)
  | rep (r : Re) (lo hi : Nat)
  | seq (r s : Re)

/-- All remainders left by matching between `lo` and `hi` repetitions of `step`
at the front of `cs`. -/
def runRep (step : List Char → List (List Char)) : Nat → Nat → List Char → List (List Char)
  | lo, 0, cs => if lo = 0 then [cs] else []
  | lo, hi + 1, cs =>
    (if lo = 0 then [cs] else []) ++ (step cs).flatMap (runRep step (lo - 1) hi)

/-- All remainders left by matching `r` at the front of the input. -/
def Re.run : Re → List Char → List (List Char)
  | .lit c => fun cs =>
    match cs with
    | d :: rest => if d = c then [rest] else []
    | [] => []
  | .cls p => fun cs =>
    match cs with
    | d :: rest => if p d then [rest] else []
    | [] => []
  | .opt r => fun cs => r.run cs ++ [cs]
  | .rep r lo hi => fun cs => runRep r.run lo hi cs
  | .seq r s => fun cs => (r.run cs).flatMap s.run

/-- The result of `/^r$/.test(s)`: some way of matching `r` consumes all of `s`. -/
def Re.test (r : Re) (s : String) : Bool := (r.run s.data).any List.isEmpty

/-- The pattern of line 117, `^\+?[\d\s-]{8,15}$`, without its anchors. -/
def phonePattern : Re :=
  .seq (.opt (.lit '+')) (.rep (.cls (fun c => isJsDigit c || isJsSpace c || c == '-')) 8 15)

/-! ## Joi string schemas -/

/-- The rules a `Joi.string()` schema of this file carries. -/
inductive Rule where
  | min (limit : Nat)
  | max (limit : Nat)
  | pattern (re : Re) (source : String)
  | email

/-- A `Joi.string()` schema: its rules in the order they were added, whether it
is `.required()`, the values added with `.allow(...)`, and the `.messages(...)`
overrides. -/
structure StringSchema where
  rules : List Rule
  required : Bool
  allowed : List String
  messages : List (String × String)

/-- A validation error as Joi reports it in `error.details`: the key, the error
code and the rendered message. -/
structure JoiError where
  key : String
  code : String
  message : String
  deriving DecidableEq, Repr

/-- Joi default message of an error code for a key, the label being the quoted key. -/
def defaultMessage (key code : String) (limit : Nat) (extra : String) : String :=
  let label := "\"" ++ key ++ "\""
  if code = "string.base" then label ++ " must be a string"
  else if code = "string.empty" then label ++ " is not allowed to be empty"
  else if code = "any.required" then label ++ " is required"
  else if code = "string.min" then
    label ++ " length must be at least " ++ toString limit ++ " characters long"
  else if code = "string.max" then
    label ++ " length must be less than or equal to " ++ toString limit ++ " characters long"
  else if code = "string.email" then label ++ " must be a valid email"
  else label ++ " with value " ++ extra

/-- The error of a code: the schema override when there is one, else the default. -/
def mkError (sch : StringSchema) (key code : String) (limit : Nat) (extra : String) : JoiError :=
  match sch.messages.lookup code with
  | some m => ⟨key, code, m⟩
  | none => ⟨key, code, defaultMessage key code limit extra⟩

/-- Whether the schema has a `min` rule with limit 0 (which lets `""` through the
empty-string check). -/
def hasMinZero : List Rule → Bool
  | [] => false
  | .min 0 :: _ => true
  | _ :: rs => hasMinZero rs

/-- Run the rules in order on a string; the first failing rule gives the error. -/
def runRules (isEmail : String → Bool) (sch : StringSchema) (key : String) (s : String) :
    List Rule → Option JoiError
  | [] => none
  | .min n :: rs =>
    if jsLength s < n then some (mkError sch key "string.min" n s)
    else runRules isEmail sch key s rs
  | .max n :: rs =>
    if n < jsLength s then some (mkError sch key "string.max" n s)
    else runRules isEmail sch key s rs
  | .pattern re src :: rs =>
    if re.test s then runRules isEmail sch key s rs
    else some (mkError sch key "string.pattern.base" 0 (s ++ " fails to match the required pattern: " ++ src))
  | .email :: rs =>
    if isEmail s then runRules isEmail sch key s rs
    else some (mkError sch key "string.email" 0 s)

/-- Joi validation of one value against a string schema: presence, the allowed
values, the base type, the empty string, then the rules. `none` means valid. -/
def validateString (isEmail : String → Bool) (sch : StringSchema) (key : String) :
    JsVal → Option JoiError
  | .undefined => if sch.required then some (mkError sch key "any.required" 0 "") else none
  | .str s =>
    if s ∈ sch.allowed then none
    else if s = "" then
      if hasMinZero sch.rules then none else some (mkError sch key "string.empty" 0 "")
    else runRules isEmail sch key s sch.rules
  | _ => some (mkError sch key "string.base" 0 "")

/-- Joi validation of an object against its keys in schema order with the default
`abortEarly`: the first key that fails gives the only error. -/
def validateObject (isEmail : String → Bool) : List (String × StringSchema × JsVal) → Option JoiError
  | [] => none
  | (key, sch, v) :: rest =>
    match validateString isEmail sch key v with
    | some e => some e
    | none => validateObject isEmail rest

/-! ## The contact schema (lines 104-129) -/

/-- The object passed to the validator: the four fields of the request body. -/
structure Body where
  name : JsVal
  email : JsVal
  number : JsVal
  message : JsVal
  deriving DecidableEq, Repr

/-- The schema of `name` (lines 105-110). -/
def nameSchema : StringSchema :=
  { rules := [.min 2, .max 50], required := true, allowed := [],
    messages := [("string.base", "* Name must be a string"),
                 ("string.min", "* Name must be at least 2 characters long"),
                 ("string.max", "* Name must not exceed 50 characters"),
                 ("any.required", "* Name is required")] }

/-- The schema of `email` (lines 111-115). -/
def emailSchema : StringSchema :=
  { rules := [.email], required := true, allowed := [],
    messages := [("string.base", "* Email must be a string"),
                 ("string.email", "* Email must be a valid email address"),
                 ("any.required", "* Email is required")] }

/-- The schema of `number` (lines 116-124). -/
def numberSchema : StringSchema :=
  { rules := [.pattern phonePattern "/^\\+?[\\d\\s-]\x7b8,15\x7d$/"], required := true, allowed := [],
    messages := [("string.base", "* Phone Number must be a string"),
                 ("string.pattern.base",
                  "* Phone Number must be a valid format (8-15 digits, optional spaces, hyphens, or +)"),
                 ("any.required", "* Phone Number is required")] }

/-- The schema of `message` (lines 125-128). -/
def messageSchema : StringSchema :=
  { rules := [.max 500], required := false, allowed := [""],
    messages := [("string.base", "* Message must be a string"),
                 ("string.max", "* Message must not exceed 500 characters")] }

/-- The call `contactValidationSchema.validate(b)`; `none` when there is no error. -/
def contactValidationSchema (isEmail : String → Bool) (b : Body) : Option JoiError :=
  validateObject isEmail
    [("name", nameSchema, b.name), ("email", emailSchema, b.email),
     ("number", numberSchema, b.number), ("message", messageSchema, b.message)]

/-! ## The store connection (lines 32-65) -/

/-- A connection handle, as `mongoose.connect` resolves to. -/
abbrev Conn := Nat

/-- How the promise of one `mongoose.connect` call settles. -/
inductive ConnectOutcome where
  | resolved (c : Conn)
  | rejected (msg : String)
  deriving DecidableEq, Repr

/-- The module-level `cached` object together with what one needs to observe
`dbConnect`: how often `mongoose.connect` was invoked and which backoff delays
(in ms) were waited. A settled or pending promise is represented by the outcome
that awaiting it gives. -/
structure DbState where
  conn : Option Conn
  promise : Option ConnectOutcome
  connects : Nat
  waits : List Nat
  deriving DecidableEq, Repr

/-- How a `dbConnect` call ends: it returns `cached.conn` (or `undefined` when
the loop body never ran), or it throws an `Error` with the given message. -/
inductive DbResult where
  | returned (c : Option Conn)
  | threw (msg : String)
  deriving DecidableEq, Repr

/-- The `for` loop of `dbConnect` from a given attempt number on. `connect k` is
the outcome of the invocation number `k` (from 0) of `mongoose.connect`. The
first argument bounds the number of iterations left. -/
def dbConnectLoop (connect : Nat → ConnectOutcome) (retries delay : Nat) :
    Nat → Nat → DbState → DbResult × DbState
  | 0, _, s => (.returned none, s)
  | fuel + 1, attempt, s =>
    if attempt ≤ retries then
      let s1 : DbState :=
        match s.promise with
        | none => { s with promise := some (connect s.connects), connects := s.connects + 1 }
        | some _ => s
      match s1.promise with
      | some (.resolved c) => (.returned (some c), { s1 with conn := some c })
      | some (.rejected e) =>
        if attempt = retries then
          (.threw ("MongoDB connection failed after " ++ toString retries ++ " attempts: " ++ e), s1)
        else
          dbConnectLoop connect retries delay fuel (attempt + 1)
            { s1 with waits := s1.waits ++ [delay * attempt] }
      | none => (.returned none, s1)
    else (.returned none, s)

/-- The function `dbConnect(retries = 3, delay = 1000)`. -/
def dbConnect (connect : Nat → ConnectOutcome) (retries delay : Nat) (s : DbState) :
    DbResult × DbState :=
  match s.conn with
  | some c => (.returned (some c), s)
  | none => dbConnectLoop connect retries delay retries 1 s

/-- The state of a process in which `dbConnect` was never called. -/
def DbState.fresh : DbState := ⟨none, none, 0, []⟩

/-! ## Mail sending with retry (lines 306-321) -/

/-- What one `transporter.sendMail` call does: it resolves after some time with a
message id, rejects after some time with an error message, or never settles. -/
inductive SendOutcome where
  | sent (latency : Nat) (messageId : String)
  | failed (latency : Nat) (msg : String)
  | hang
  deriving DecidableEq, Repr

/-- How a promise ends, with the instant (ms after the dispatch) at which it settles. -/
inductive Settle where
  | resolved (time : Nat)
  | rejected (time : Nat) (msg : String)
  | never
  deriving DecidableEq, Repr

/-- One run of `sendMailWithRetry`: how its promise settles, the message id of
the `sendMail` result it resolves with (`none` when it does not resolve, or
resolves with `undefined`), how many `transporter.sendMail` calls it made and
which backoff delays it waited. -/
structure MailRun where
  settle : Settle
  result : Option String
  attempts : Nat
  waits : List Nat
  deriving DecidableEq, Repr

/-- The `for` loop of `sendMailWithRetry` from a given attempt number on, started
at instant `t`. `send k` is the outcome of the attempt number `k` (from 1). -/
def sendMailLoop (send : Nat → SendOutcome) (retries : Nat) :
    Nat → Nat → Nat → List Nat → MailRun
  | 0, attempt, t, ws => ⟨.resolved t, none, attempt - 1, ws⟩
  | fuel + 1, attempt, t, ws =>
    if attempt ≤ retries then
      match send attempt with
      | .sent l id => ⟨.resolved (t + l), some id, attempt, ws⟩
      | .failed l msg =>
        if attempt = retries then
          ⟨.rejected (t + l)
            ("Email sending failed after " ++ toString retries ++ " attempts: " ++ msg),
            none, attempt, ws⟩
        else
          sendMailLoop send retries fuel (attempt + 1) (t + l + 1000 * attempt)
            (ws ++ [1000 * attempt])
      | .hang => ⟨.never, none, attempt, ws⟩
    else ⟨.resolved t, none, attempt - 1, ws⟩

/-- The function `sendMailWithRetry(from, to, subject, html, retries = 3)`. -/
def sendMailWithRetry (send : Nat → SendOutcome) (retries : Nat) : MailRun :=
  sendMailLoop send retries retries 1 0 []

/-! ## The Zoho access token cache (lines 328-393) -/

/-- The Zoho credentials of the environment; `""` stands for an unset variable. -/
structure ZohoEnv where
  clientId : String
  clientSecret : String
  refreshToken : String
  deriving DecidableEq, Repr

/-- The module-level `cachedAccessToken`. `expiresAt` is in ms; `none` stands for
`null` or `NaN`, both falsy. -/
structure TokenCache where
  token : Option String
  expiresAt : Option Int
  deriving DecidableEq, Repr

/-- What a call of the token endpoint gives: the `fetch` or `response.json()`
throws, or there is a JSON document, of which the code reads `response.ok`,
whether `data.error` is truthy, `data.access_token` and `data.expires_in`. -/
inductive AuthReply where
  | threw (msg : String)
  | json (ok : Bool) (hasError : Bool) (accessToken : Option String) (expiresIn : Option Int)
  deriving DecidableEq, Repr

/-- The parsed JSON body of a CRM response: `result.message` and the rest. -/
structure CrmJson where
  message : Option String
  payload : String
  deriving DecidableEq, Repr

/-- The body of a CRM response: `response.json()` throws, or it gives a document
(`none` for the JSON value `null`). -/
inductive CrmBody where
  | unparsable (msg : String)
  | json (j : Option CrmJson)
  deriving DecidableEq, Repr

/-- What a lead POST gives: the `fetch` throws, or there is a response. -/
inductive CrmReply where
  | threw (msg : String)
  | resp (status : Nat) (body : CrmBody)
  deriving DecidableEq, Repr

/-- The behaviour of the systems outside the process, as seen by the Zoho code:
the reading number `k` of `Date.now()`, the reply to the call number `k` of the
token endpoint and to the lead POST number `k` (all from 0). -/
structure Ext where
  clock : Nat → Int
  auth : Nat → AuthReply
  crm : Nat → CrmReply

/-- The validated fields handed to `createZohoContact`. -/
structure ContactData where
  name : String
  email : String
  number : String
  message : String
  deriving DecidableEq, Repr

/-- The lead object of lines 418-426. -/
structure Lead where
  First_Name : String
  Last_Name : String
  Email : String
  Phone : String
  Description : String
  Lead_Source : String
  Lead_Status : String
  deriving DecidableEq, Repr

/-- One lead POST: the token of its `Authorization` header and its body. -/
structure LeadPost where
  token : String
  lead : Lead
  deriving DecidableEq, Repr

/-- The token cache together with what one needs to observe the Zoho code: the
number of `Date.now()` readings, of `refreshZohoAccessToken` calls, of token
endpoint calls, and the lead POSTs made. -/
structure ZohoState where
  cache : TokenCache
  ticks : Nat
  refreshCalls : Nat
  authCalls : Nat
  posts : List LeadPost
  deriving DecidableEq, Repr

/-- The function `refreshZohoAccessToken`; its result is `null` (`none`) or
`data.access_token`. -/
def refreshZohoAccessToken (env : ZohoEnv) (ext : Ext) (s0 : ZohoState) :
    Option String × ZohoState :=
  let s : ZohoState := { s0 with refreshCalls := s0.refreshCalls + 1 }
  if !truthy env.clientId || !truthy env.clientSecret || !truthy env.refreshToken then
    (none, s)
  else
    let s1 : ZohoState := { s with authCalls := s.authCalls + 1 }
    match ext.auth s.authCalls with
    | .threw _ => (none, s1)
    | .json ok hasError tok expiresIn =>
      if !ok || hasError then (none, s1)
      else
        let now := ext.clock s1.ticks
        (tok, { s1 with
                  cache := ⟨tok, expiresIn.map (fun l => now + (l - 60) * 1000)⟩,
                  ticks := s1.ticks + 1 })

/-- The function `getZohoAccessToken`. `Date.now()` is read only when the cached
token and expiry are both truthy. -/
def getZohoAccessToken (env : ZohoEnv) (ext : Ext) (s : ZohoState) :
    Option String × ZohoState :=
  match s.cache.token, s.cache.expiresAt with
  | some tok, some exp =>
    if truthy tok && exp != 0 then
      let s1 : ZohoState := { s with ticks := s.ticks + 1 }
      if ext.clock s.ticks < exp then (some tok, s1)
      else refreshZohoAccessToken env ext s1
    else refreshZohoAccessToken env ext s
  | _, _ => refreshZohoAccessToken env ext s

/-! ## CRM sync (lines 398-482) -/

/-- The pieces of `s.split(/\s+/)`: `cur` is the piece being read (reversed),
`inSpace` says that the previous character was a separator. -/
def splitSpacesAux : List Char → List Char → Bool → List String
  | [], cur, _ => [String.mk cur.reverse]
  | c :: cs, cur, inSpace =>
    if isJsSpace c then
      if inSpace then splitSpacesAux cs cur true
      else String.mk cur.reverse :: splitSpacesAux cs [] true
    else splitSpacesAux cs (c :: cur) false

/-- The call `s.split(/\s+/)`. -/
def splitSpaces (s : String) : List String := splitSpacesAux s.data [] false

/-- The call `s.trim()`. -/
def jsTrim (s : String) : String :=
  String.mk ((s.data.dropWhile isJsSpace).reverse.dropWhile isJsSpace).reverse

/-- The lead of lines 412-426. -/
def buildLead (c : ContactData) : Lead :=
  let nameParts := splitSpaces (jsTrim c.name)
  let firstName := if nameParts.length > 1 then nameParts.headD "" else c.name
  let lastName := if nameParts.length > 1 then " ".intercalate (nameParts.drop 1) else ""
  { First_Name := firstName,
    Last_Name := if truthy lastName then lastName else firstName,
    Email := c.email,
    Phone := c.number,
    Description :=
      if truthy c.message then c.message else "Contact form submission from Azalea website",
    Lead_Source := "Website",
    Lead_Status := "Not Contacted" }

/-- The object `createZohoContact` resolves to. -/
inductive ZohoResult where
  | success (data : Option CrmJson)
  | failure (error : String)
  deriving DecidableEq, Repr

/-- The property `response.ok` of a `fetch` response. -/
def isOk (status : Nat) : Bool := 200 ≤ status && status ≤ 299

/-- Lines 472-473: the failure built from the body of the first response; reading
`message` of `null` throws, which the outer `catch` turns into a failure. -/
def leadFailure (result : Option CrmJson) : ZohoResult :=
  match result with
  | none => .failure "Cannot read properties of null (reading 'message')"
  | some j =>
    match j.message with
    | some m => if truthy m then .failure m else .failure "Unknown error"
    | none => .failure "Unknown error"

/-- One lead POST with a token: the request is recorded and the reply number
`posts.length` of the CRM is returned. -/
def postLead (ext : Ext) (s : ZohoState) (token : String) (lead : Lead) : CrmReply × ZohoState :=
  (ext.crm s.posts.length, { s with posts := s.posts ++ [⟨token, lead⟩] })

/-- The function `createZohoContact`. -/
def createZohoContact (env : ZohoEnv) (ext : Ext) (s : ZohoState) (c : ContactData) :
    ZohoResult × ZohoState :=
  let (accessToken, s1) := getZohoAccessToken env ext s
  match accessToken with
  | none => (.failure "No access token", s1)
  | some tok =>
    if !truthy tok then (.failure "No access token", s1)
    else
      let lead := buildLead c
      let (reply, s2) := postLead ext s1 tok lead
      match reply with
      | .threw msg => (.failure msg, s2)
      | .resp _ (.unparsable msg) => (.failure msg, s2)
      | .resp status (.json result) =>
        if !isOk status then
          if status = 401 then
            let (newToken, s3) := refreshZohoAccessToken env ext s2
            match newToken with
            | none => (leadFailure result, s3)
            | some nt =>
              if !truthy nt then (leadFailure result, s3)
              else
                let (retry, s4) := postLead ext s3 nt lead
                match retry with
                | .threw msg => (.failure msg, s4)
                | .resp _ (.unparsable msg) => (.failure msg, s4)
                | .resp retryStatus (.json retryResult) =>
                  if isOk retryStatus then (.success retryResult, s4)
                  else (leadFailure result, s4)
          else (leadFailure result, s2)
        else (.success result, s2)

/-! ## The request handler (lines 487-651) -/

/-- The environment variables read at module load; `""` stands for an unset one. -/
structure Env where
  MONGODB_URI : String
  SMTP_MAIL : String
  SMTP_PASS : String
  zoho : ZohoEnv
  deriving DecidableEq, Repr

/-- The guard of lines 23-27: the module, and so `handler`, exists only when the
three required variables are set. -/
def moduleLoads (env : Env) : Bool :=
  !(!truthy env.MONGODB_URI || !truthy env.SMTP_MAIL || !truthy env.SMTP_PASS)

/-- A request: its method and its body (`none` when `req.body` is `undefined`). -/
structure Request where
  method : String
  body : Option Body
  deriving DecidableEq, Repr

/-- The `data` object of the 201 response. -/
structure Echo where
  name : String
  email : String
  number : String
  message : Option String
  submittedAt : String
  deriving DecidableEq, Repr

/-- The JSON object of a response; absent keys are `none`. -/
structure Json where
  isSuccess : Bool
  message : String
  error : Option String
  data : Option Echo
  emailStatus : Option String
  zohoCrmStatus : Option String
  zohoCrmError : Option String
  deriving DecidableEq, Repr

/-- A response: status, headers and the JSON body (`none` after `.end()`). -/
structure Response where
  status : Nat
  headers : List (String × String)
  body : Option Json
  deriving DecidableEq, Repr

/-- The calls a request makes that the outside can observe, in program order. -/
inductive Event where
  | dbConnectCalled
  | validateCalled
  | saveCalled (c : ContactData)
  | saveCompleted
  | saveThrew (msg : String)
  | createZohoContactCalled (c : ContactData)
  | sendMailWithRetryCalled (recipient subject : String)
  | responded (status : Nat)
  deriving DecidableEq, Repr

/-- The behaviour of everything outside the handler during one request. Instants
are in ms after the dispatch of the CRM call and the mails, which start together.
`save` is `none` when `newContact.save()` resolves and `some msg` when it throws;
`crmSettle` is the instant at which the promise of `createZohoContact` settles
(`none`: never); `mailUser k` and `mailFirm k` are the outcomes of the attempt
number `k` of the acknowledgment and of the operator alert. When the mails settle
at the very instant 8000 at which the timer of lines 605-610 is due, the event
loop decides which of the two is handled first: `mailBeatsTimer` says that it is
the completion of the mails. -/
structure World where
  isEmail : String → Bool
  connect : Nat → ConnectOutcome
  save : Option String
  ext : Ext
  crmSettle : Option Nat
  mailUser : Nat → SendOutcome
  mailFirm : Nat → SendOutcome
  isoNow : String
  mailBeatsTimer : Bool

/-- What one request leaves behind. -/
structure Run where
  response : Response
  trace : List Event
  db : DbState
  deriving DecidableEq, Repr

/-- The three headers set by lines 489-491. -/
def corsHeaders : List (String × String) :=
  [("Access-Control-Allow-Origin", "*"),
   ("Access-Control-Allow-Methods", "POST, OPTIONS"),
   ("Access-Control-Allow-Headers", "Content-Type")]

/-- A JSON body with only `isSuccess`, `message` and possibly `error`. -/
def failureJson (message : String) (error : Option String) : Json :=
  ⟨false, message, error, none, none, none, none⟩

/-- The response of the `catch` block of lines 643-650. -/
def internalError (msg : String) : Response :=
  ⟨500, corsHeaders, some (failureJson "Internal Server Error" (if truthy msg then some msg else none))⟩

/-- The string held by a value that passed validation. -/
def JsVal.toStr : JsVal → String
  | .str s => s
  | _ => ""

/-- The promise `Promise.all([a, b])`: rejected as soon as one of the two is,
resolved once both are. -/
def promiseAll : Settle → Settle → Settle
  | .rejected ta ma, .rejected tb mb => if ta ≤ tb then .rejected ta ma else .rejected tb mb
  | .rejected ta ma, _ => .rejected ta ma
  | _, .rejected tb mb => .rejected tb mb
  | .resolved ta, .resolved tb => .resolved (max ta tb)
  | _, _ => .never

/-- Lines 584-618: the race of the two mails against the 8000 ms timer gives
`emailStatus` and the instant at which the handler goes on. When the mails
resolve at the instant 8000 itself, `mailFirst` says whether their completion is
handled before the timer; the code leaves that order to the event loop. -/
def emailRace (mailFirst : Bool) (all : Settle) : String × Nat :=
  match all with
  | .resolved t =>
    if t < 8000 then ("sent", t)
    else if t = 8000 && mailFirst then ("sent", 8000)
    else ("failed", 8000)
  | .rejected t _ => if t < 8000 then ("failed", t) else ("failed", 8000)
  | .never => ("failed", 8000)

/-- Lines 546-581: the values of `zohoStatus` and `zohoError` at the instant
`now`. The callbacks of `zohoPromise` assign them when the CRM call has settled
before `now`; otherwise the 5000 ms timer has set `"timeout"` if it was due. -/
def zohoStatusAt (crmSettle : Option Nat) (crm : ZohoResult) (now : Nat) :
    String × Option String :=
  let waiting : String × Option String := if 5000 ≤ now then ("timeout", none) else ("pending", none)
  match crmSettle with
  | some tc =>
    if tc < now then
      match crm with
      | .success _ => ("success", none)
      | .failure e => ("failed", some e)
    else waiting
  | none => waiting

/-- Line 506: the destructuring of `req.body`, `message` defaulting to `""` when
it is `undefined`. -/
def Body.destructure (b : Body) : Body :=
  ⟨b.name, b.email, b.number, if b.message = .undefined then .str "" else b.message⟩

/-- The four validated fields as strings. -/
def Body.contact (b : Body) : ContactData :=
  ⟨b.name.toStr, b.email.toStr, b.number.toStr, b.message.toStr⟩

/-- Lines 545-642: after the save, the CRM sync and the two mails are started,
the handler waits for the mail race only, and builds the 201 response. -/
def respondAccepted (env : Env) (w : World) (z : ZohoState) (c : ContactData) : Response :=
  let crm := (createZohoContact env.zoho w.ext z c).1
  let user := sendMailWithRetry w.mailUser 3
  let firm := sendMailWithRetry w.mailFirm 3
  let (emailStatus, now) := emailRace w.mailBeatsTimer (promiseAll user.settle firm.settle)
  let (zohoStatus, zohoError) := zohoStatusAt w.crmSettle crm now
  let responseData : Json :=
    { isSuccess := true,
      message :=
        if emailStatus = "sent" then
          "Contact submitted successfully and confirmation emails sent"
        else "Contact submitted successfully, but email delivery failed",
      error := none,
      data := some ⟨c.name, c.email, c.number,
        if truthy c.message then some c.message else none, w.isoNow⟩,
      emailStatus := some emailStatus,
      zohoCrmStatus := some zohoStatus,
      zohoCrmError :=
        match zohoError with
        | some e => if zohoStatus = "failed" && truthy e then some e else none
        | none => none }
  ⟨201, corsHeaders, some responseData⟩

/-- The function `handler`, for a process in state `db`, `z`. -/
def handler (env : Env) (w : World) (db : DbState) (z : ZohoState) (req : Request) : Run :=
  if req.method = "OPTIONS" then
    ⟨⟨200, corsHeaders, none⟩, [.responded 200], db⟩
  else if req.method ≠ "POST" then
    ⟨⟨405, corsHeaders, some (failureJson "Method not allowed" none)⟩, [.responded 405], db⟩
  else
    match dbConnect w.connect 3 1000 db with
    | (.threw msg, db1) =>
      ⟨internalError msg, [.dbConnectCalled, .responded 500], db1⟩
    | (.returned _, db1) =>
      match req.body with
      | none =>
        ⟨internalError "Cannot destructure property 'name' of 'req.body' as it is undefined.",
          [.dbConnectCalled, .responded 500], db1⟩
      | some body =>
        let b := body.destructure
        match contactValidationSchema w.isEmail b with
        | some e =>
          ⟨⟨400, corsHeaders, some (failureJson "Validation Error" (some e.message))⟩,
            [.dbConnectCalled, .validateCalled, .responded 400], db1⟩
        | none =>
          if !truthy env.SMTP_MAIL || !truthy env.SMTP_PASS then
            ⟨⟨500, corsHeaders, some (failureJson "Email configuration error" none)⟩,
              [.dbConnectCalled, .validateCalled, .responded 500], db1⟩
          else
            match w.save with
            | some msg =>
              ⟨internalError msg,
                [.dbConnectCalled, .validateCalled, .saveCalled b.contact, .saveThrew msg,
                 .responded 500],
                db1⟩
            | none =>
              ⟨respondAccepted env w z b.contact,
                [.dbConnectCalled, .validateCalled, .saveCalled b.contact, .saveCompleted,
                 .createZohoContactCalled b.contact,
                 .sendMailWithRetryCalled b.contact.email "Thank You For Contacting Azalea",
                 .sendMailWithRetryCalled env.SMTP_MAIL "New Contact Form Submission - Azalea",
                 .responded 201],
                db1⟩

/-! ## The field rules as the specification words them -/

/-- Rule of the specification for `name`: a string of 2 to 50 characters. -/
def specNameOk : JsVal → Bool
  | .str n => 2 ≤ jsLength n && jsLength n ≤ 50
  | _ => false

/-- Rule of the specification for `email`: a string of the email grammar. -/
def specEmailOk (isEmail : String → Bool) : JsVal → Bool
  | .str e => isEmail e
  | _ => false

/-- Rule of the specification for `number`: a string matching the phone pattern. -/
def specNumberOk : JsVal → Bool
  | .str p => phonePattern.test p
  | _ => false

/-- Rule of the specification for `message`: omitted, or a string of at most 500
characters (the empty string included). -/
def specMessageOk : JsVal → Bool
  | .undefined => true
  | .str m => jsLength m ≤ 500
  | _ => false

/-- The four fields of the schema, in the order of its keys. -/
inductive Field where
  | name
  | email
  | number
  | message
  deriving DecidableEq, Repr

/-- The key of a field in the schema. -/
def Field.key : Field → String
  | .name => "name"
  | .email => "email"
  | .number => "number"
  | .message => "message"

/-- The label the schema texts give a field. -/
def Field.label : Field → String
  | .name => "Name"
  | .email => "Email"
  | .number => "Phone Number"
  | .message => "Message"

/-- The position of a field among the schema keys. -/
def Field.order : Field → Nat
  | .name => 0
  | .email => 1
  | .number => 2
  | .message => 3

/-- The schema of a field. -/
def Field.schema : Field → StringSchema
  | .name => nameSchema
  | .email => emailSchema
  | .number => numberSchema
  | .message => messageSchema

/-- The value of a field in a body. -/
def Field.value (b : Body) : Field → JsVal
  | .name => b.name
  | .email => b.email
  | .number => b.number
  | .message => b.message

/-- Whether a field of a body meets its rule of the specification. -/
def Field.specOk (isEmail : String → Bool) (b : Body) : Field → Bool
  | .name => specNameOk b.name
  | .email => specEmailOk isEmail b.email
  | .number => specNumberOk b.number
  | .message => specMessageOk b.message

/-- Whether an error text names a field: it starts with the label the schema
gives the field, or with the quoted key as in the default Joi texts. -/
def namesField (f : Field) (msg : String) : Bool :=
  (msg.data.take ("* " ++ f.label).length == ("* " ++ f.label).data) ||
  (msg.data.take ("\"" ++ f.key ++ "\"").length == ("\"" ++ f.key ++ "\"").data)

/-- Whether an event is the save of the contact. -/
def Event.isSave : Event → Bool
  | .saveCalled _ => true
  | _ => false

/-- Whether an event is a call of the CRM sync or of the mail sender. -/
def Event.isDispatch : Event → Bool
  | .createZohoContactCalled _ => true
  | .sendMailWithRetryCalled _ _ => true
  | _ => false

/-- Whether every event satisfying `q` comes after some event satisfying `p`. -/
def eachAfter (p q : Event → Bool) : List Event → Bool
  | [] => true
  | e :: t => !q e && (p e || eachAfter p q t)

/-! ## Concrete behaviours, for the statements about single runs -/

/-- A stand-in email grammar for concrete runs: a non-empty local part, `@`, and
a non-empty domain without a second `@`. -/
def sampleIsEmail (s : String) : Bool :=
  match s.data.span (fun c => c != '@') with
  | (loc, '@' :: dom) => !loc.isEmpty && !dom.isEmpty && !dom.contains '@'
  | _ => false

/-- An environment with every variable set. -/
def sampleEnv : Env := ⟨"mongodb://db", "info@azalea.test", "secret", ⟨"id", "key", "refresh"⟩⟩

/-- A token endpoint that grants `tok` for an hour and a CRM that creates leads. -/
def sampleExt : Ext :=
  ⟨fun k => 1000000 + k, fun _ => .json true false (some "tok") (some 3600),
   fun _ => .resp 201 (.json (some ⟨none, "created"⟩))⟩

/-- A world in which the store, the CRM and the mail relay all work. -/
def sampleWorld : World :=
  ⟨sampleIsEmail, fun _ => .resolved 1, none, sampleExt, some 300,
   fun _ => .sent 200 "id-1", fun _ => .sent 250 "id-2", "2024-01-01T00:00:00.000Z", false⟩

/-- The world of `sampleWorld` with an unreachable store. -/
def downWorld : World :=
  ⟨sampleIsEmail, fun _ => .rejected "ECONNREFUSED", none, sampleExt, some 300,
   fun _ => .sent 200 "id-1", fun _ => .sent 250 "id-2", "2024-01-01T00:00:00.000Z", false⟩

/-- A store whose first connection attempt is refused and whose later attempts
would all succeed. -/
def flakyConnect : Nat → ConnectOutcome :=
  fun k => if k = 0 then .rejected "ECONNREFUSED" else .resolved 7

/-- A CRM that answers the first lead POST with 401 and a JSON body, and creates
the lead on the next POST; the token endpoint grants `fresh`. -/
def unauthorizedOnceExt : Ext :=
  ⟨fun k => 1000000 + k, fun _ => .json true false (some "fresh") (some 3600),
   fun k => if k = 0 then .resp 401 (.json (some ⟨some "invalid oauth token", ""⟩))
            else .resp 201 (.json (some ⟨none, "created"⟩))⟩

/-- A CRM behind a gateway that answers 401 with an HTML page, on which
`response.json()` throws. -/
def htmlUnauthorizedExt : Ext :=
  ⟨fun k => 1000000 + k, fun _ => .json true false (some "fresh") (some 3600),
   fun _ => .resp 401 (.unparsable "Unexpected token < in JSON at position 0")⟩

/-- A process holding the token `old`, valid until the instant 5000000. -/
def cachedZoho : ZohoState := ⟨⟨some "old", some 5000000⟩, 0, 0, 0, []⟩

/-- The state of a process that has not talked to Zoho yet. -/
def ZohoState.fresh : ZohoState := ⟨⟨none, none⟩, 0, 0, 0, []⟩

/-- The input of the scenario `{name:"Jo", email:"jo@x.com", number:"12345678"}`. -/
def joBody : Body := ⟨.str "Jo", .str "jo@x.com", .str "12345678", .undefined⟩

/-- An input in which every field breaks its rule. -/
def manyInvalidBody : Body := ⟨.str "J", .str "nobody", .str "12", .other⟩

/-- The input of the scenario with a name of length 1. -/
def shortNameBody : Body := ⟨.str "J", .str "jo@x.com", .str "12345678", .undefined⟩

/-- The instant, in ms after the dispatch, at which the handler goes on after the
mail race of lines 603-611 and builds the 201 response. -/
def respondedAt (w : World) : Nat :=
  (emailRace w.mailBeatsTimer (promiseAll (sendMailWithRetry w.mailUser 3).settle
    (sendMailWithRetry w.mailFirm 3).settle)).2

/-- A world in which the CRM call settles after 6 s and the acknowledgment mail
takes 7 s, everything else as in `sampleWorld`. -/
def slowMailWorld : World :=
  ⟨sampleIsEmail, fun _ => .resolved 1, none, sampleExt, some 6000,
   fun _ => .sent 7000 "id-1", fun _ => .sent 250 "id-2", "2024-01-01T00:00:00.000Z", false⟩

/-- A world in which the CRM call never settles and the acknowledgment mail takes
7 s, everything else as in `sampleWorld`. -/
def hangingCrmWorld : World :=
  ⟨sampleIsEmail, fun _ => .resolved 1, none, sampleExt, none,
   fun _ => .sent 7000 "id-1", fun _ => .sent 250 "id-2", "2024-01-01T00:00:00.000Z", false⟩

/-- A CRM that answers every lead POST with 500 and the message `internal error`. -/
def brokenCrmExt : Ext :=
  ⟨fun k => 1000000 + k, fun _ => .json true false (some "fresh") (some 3600),
   fun _ => .resp 500 (.json (some ⟨some "internal error", ""⟩))⟩

/-- A mail relay that refuses the first two attempts and accepts the third. -/
def thirdTimeLucky : Nat → SendOutcome :=
  fun k => if k < 3 then .failed 100 "busy" else .sent 50 "id-3"

/-- The class `[\d\s-]`: a digit, a whitespace character or a hyphen. -/
def isPhoneChar (c : Char) : Bool := isJsDigit c || isJsSpace c || c == '-'

/-- The shape of a phone value in words: an optional leading `+`, followed by 8 to
15 characters, each of them a digit, a whitespace character or a hyphen. -/
def phoneShape (p : String) : Bool :=
  let body :=
    match p.data with
    | c :: rest => if c = '+' then rest else c :: rest
    | [] => []
  8 ≤ body.length && body.length ≤ 15 && body.all isPhoneChar

/-- The whitespace-delimited tokens of a list of characters: its maximal runs of
characters that are not whitespace; `cur` is the run being read, reversed. -/
def tokensAux : List Char → List Char → List String
  | [], cur => if cur.isEmpty then [] else [String.mk cur.reverse]
  | c :: cs, cur =>
    if isJsSpace c then
      if cur.isEmpty then tokensAux cs [] else String.mk cur.reverse :: tokensAux cs []
    else tokensAux cs (c :: cur)

/-- The whitespace-delimited tokens of a name. -/
def tokens (s : String) : List String := tokensAux s.data []

/-- A world in which the acknowledgment mail resolves at the instant 8000 itself,
everything else as in `sampleWorld`; the argument says whether the event loop
handles that completion before the timer. -/
def tieWorld (mailFirst : Bool) : World :=
  ⟨sampleIsEmail, fun _ => .resolved 1, none, sampleExt, some 300,
   fun _ => .sent 8000 "id-1", fun _ => .sent 250 "id-2", "2024-01-01T00:00:00.000Z",
   mailFirst⟩

/-! # Theorems -/

theorem jsLength_empty : jsLength "" = 0 := rfl

theorem name_field_iff (isEmail : String → Bool) (v : JsVal) :
    validateString isEmail nameSchema "name" v = none ↔ specNameOk v = true := by
  cases v with
  | undefined => simp [validateString, nameSchema, specNameOk]
  | null => simp [validateString, specNameOk]
  | other => simp [validateString, specNameOk]
  | str s =>
    by_cases hs : s = ""
    · subst hs
      simp [validateString, nameSchema, specNameOk, hasMinZero, jsLength_empty]
    · simp only [validateString, nameSchema, specNameOk, hs, runRules, List.not_mem_nil,
        if_false]
      split_ifs <;> simp <;> omega

theorem email_field_iff (isEmail : String → Bool) (hE : isEmail "" = false) (v : JsVal) :
    validateString isEmail emailSchema "email" v = none ↔ specEmailOk isEmail v = true := by
  cases v with
  | undefined => simp [validateString, emailSchema, specEmailOk]
  | null => simp [validateString, specEmailOk]
  | other => simp [validateString, specEmailOk]
  | str s =>
    by_cases hs : s = ""
    · subst hs
      simp [validateString, emailSchema, specEmailOk, hasMinZero, hE]
    · simp only [validateString, emailSchema, specEmailOk, hs, runRules, List.not_mem_nil,
        if_false]
      split_ifs <;> simp_all

theorem phone_rejects_empty : phonePattern.test "" = false := by decide

theorem number_field_iff (isEmail : String → Bool) (v : JsVal) :
    validateString isEmail numberSchema "number" v = none ↔ specNumberOk v = true := by
  cases v with
  | undefined => simp [validateString, numberSchema, specNumberOk]
  | null => simp [validateString, specNumberOk]
  | other => simp [validateString, specNumberOk]
  | str s =>
    by_cases hs : s = ""
    · subst hs
      simp [validateString, numberSchema, specNumberOk, hasMinZero, phone_rejects_empty]
    · simp only [validateString, numberSchema, specNumberOk, hs, runRules, List.not_mem_nil,
        if_false]
      split_ifs <;> simp_all

theorem message_field_iff (isEmail : String → Bool) (v : JsVal) :
    validateString isEmail messageSchema "message" v = none ↔ specMessageOk v = true := by
  cases v with
  | undefined => simp [validateString, messageSchema, specMessageOk]
  | null => simp [validateString, specMessageOk]
  | other => simp [validateString, specMessageOk]
  | str s =>
    by_cases hs : s = ""
    · subst hs
      simp [validateString, messageSchema, specMessageOk, jsLength_empty]
    · simp only [validateString, messageSchema, specMessageOk, hs, runRules,
        List.mem_singleton, if_false]
      split_ifs <;> simp <;> omega

/-- C5: `contactValidationSchema` accepts an input exactly when `name` is a string of 2 to 50
characters, `email` is a string of the email grammar, `number` is a string matching
`^\+?[\d\s-]{8,15}$` and `message` is omitted or a string of at most 500 characters (the
empty one included); otherwise it reports an error. Lengths are JavaScript string lengths;
the email grammar is Joi's and is only assumed to reject the empty string. -/
theorem contactValidationSchema_accepts_iff (isEmail : String → Bool)
    (hE : isEmail "" = false) (b : Body) :
    contactValidationSchema isEmail b = none ↔
      (∃ n, b.name = .str n ∧ 2 ≤ jsLength n ∧ jsLength n ≤ 50) ∧
      (∃ e, b.email = .str e ∧ isEmail e = true) ∧
      (∃ p, b.number = .str p ∧ phonePattern.test p = true) ∧
      (b.message = .undefined ∨ ∃ m, b.message = .str m ∧ jsLength m ≤ 500) := by
  have hn := name_field_iff isEmail b.name
  have he := email_field_iff isEmail hE b.email
  have hp := number_field_iff isEmail b.number
  have hm := message_field_iff isEmail b.message
  have e1 : specNameOk b.name = true ↔ ∃ n, b.name = .str n ∧ 2 ≤ jsLength n ∧ jsLength n ≤ 50 := by
    cases b.name <;> simp [specNameOk]
  have e2 : specEmailOk isEmail b.email = true ↔ ∃ e, b.email = .str e ∧ isEmail e = true := by
    cases b.email <;> simp [specEmailOk]
  have e3 : specNumberOk b.number = true ↔ ∃ p, b.number = .str p ∧ phonePattern.test p = true := by
    cases b.number <;> simp [specNumberOk]
  have e4 : specMessageOk b.message = true ↔
      (b.message = .undefined ∨ ∃ m, b.message = .str m ∧ jsLength m ≤ 500) := by
    cases b.message <;> simp [specMessageOk]
  rw [← e1, ← e2, ← e3, ← e4, ← hn, ← he, ← hp, ← hm]
  simp only [contactValidationSchema, validateObject]
  cases validateString isEmail nameSchema "name" b.name <;>
  cases validateString isEmail emailSchema "email" b.email <;>
  cases validateString isEmail numberSchema "number" b.number <;>
  cases validateString isEmail messageSchema "message" b.message <;> simp

theorem handler_cases (env : Env) (w : World) (db : DbState) (z : ZohoState) (req : Request) :
    (req.method = "OPTIONS" ∧
      handler env w db z req = ⟨⟨200, corsHeaders, none⟩, [.responded 200], db⟩) ∨
    (req.method ≠ "OPTIONS" ∧ req.method ≠ "POST" ∧
      handler env w db z req =
        ⟨⟨405, corsHeaders, some (failureJson "Method not allowed" none)⟩, [.responded 405], db⟩) ∨
    (req.method = "POST" ∧ ∃ msg db1, dbConnect w.connect 3 1000 db = (.threw msg, db1) ∧
      handler env w db z req =
        ⟨internalError msg, [.dbConnectCalled, .responded 500], db1⟩) ∨
    (req.method = "POST" ∧ ∃ c db1, dbConnect w.connect 3 1000 db = (.returned c, db1) ∧
      ((req.body = none ∧ ∃ msg, handler env w db z req =
          ⟨internalError msg, [.dbConnectCalled, .responded 500], db1⟩) ∨
       (∃ body, req.body = some body ∧
        ((∃ e, contactValidationSchema w.isEmail body.destructure = some e ∧
            handler env w db z req =
              ⟨⟨400, corsHeaders, some (failureJson "Validation Error" (some e.message))⟩,
                [.dbConnectCalled, .validateCalled, .responded 400], db1⟩) ∨
         (contactValidationSchema w.isEmail body.destructure = none ∧
          ((moduleLoads env = false ∧ handler env w db z req =
              ⟨⟨500, corsHeaders, some (failureJson "Email configuration error" none)⟩,
                [.dbConnectCalled, .validateCalled, .responded 500], db1⟩) ∨
           (∃ msg, w.save = some msg ∧ handler env w db z req =
              ⟨internalError msg,
                [.dbConnectCalled, .validateCalled, .saveCalled body.destructure.contact,
                 .saveThrew msg, .responded 500], db1⟩) ∨
           (w.save = none ∧ truthy env.SMTP_MAIL = true ∧ truthy env.SMTP_PASS = true ∧
            handler env w db z req =
              ⟨respondAccepted env w z body.destructure.contact,
                [.dbConnectCalled, .validateCalled, .saveCalled body.destructure.contact,
                 .saveCompleted, .createZohoContactCalled body.destructure.contact,
                 .sendMailWithRetryCalled body.destructure.contact.email
                   "Thank You For Contacting Azalea",
                 .sendMailWithRetryCalled env.SMTP_MAIL "New Contact Form Submission - Azalea",
                 .responded 201], db1⟩))))))) := by
  unfold handler
  by_cases h1 : req.method = "OPTIONS"
  · left; simp [h1]
  by_cases h2 : req.method = "POST"
  swap
  · right; left; simp [h1, h2]
  right; right
  simp only [h1, h2, if_false, ne_eq, not_true_eq_false]
  rcases hdb : dbConnect w.connect 3 1000 db with ⟨r, db1⟩
  cases r with
  | threw msg => left; exact ⟨trivial, msg, db1, rfl, rfl⟩
  | returned c =>
    right
    refine ⟨trivial, c, db1, rfl, ?_⟩
    cases hb : req.body with
    | none => left; exact ⟨rfl, _, rfl⟩
    | some body =>
      right
      refine ⟨body, rfl, ?_⟩
      simp only []
      cases hv : contactValidationSchema w.isEmail body.destructure with
      | some e => left; exact ⟨e, rfl, rfl⟩
      | none =>
        right
        refine ⟨rfl, ?_⟩
        by_cases hm : (!truthy env.SMTP_MAIL || !truthy env.SMTP_PASS) = true
        · left
          simp only [hm, if_true, and_true]
          simp only [Bool.or_eq_true, Bool.not_eq_true'] at hm
          rcases hm with hm | hm <;> simp [moduleLoads, hm]
        · right
          simp only [hm, if_false]
          simp only [Bool.or_eq_true, Bool.not_eq_true', not_or, Bool.not_eq_false] at hm
          cases hs : w.save with
          | some msg => left; exact ⟨msg, rfl, rfl⟩
          | none => right; exact ⟨rfl, hm.1, hm.2, rfl⟩

theorem respondAccepted_status (env : Env) (w : World) (z : ZohoState) (c : ContactData) :
    (respondAccepted env w z c).status = 201 := rfl

theorem respondAccepted_isSuccess (env : Env) (w : World) (z : ZohoState) (c : ContactData) :
    ∃ j, (respondAccepted env w z c).body = some j ∧ j.isSuccess = true :=
  ⟨_, rfl, rfl⟩

/-- C1: whatever the store, the CRM and the mail relay do, a response with status 201 or
with `isSuccess = true` is produced only after the save of the contact was invoked and
completed without error: the trace holds `saveCalled`, `saveCompleted` before the response
and no `saveThrew`. -/
theorem accepted_only_after_save (env : Env) (w : World) (db : DbState) (z : ZohoState)
    (req : Request)
    (h : (handler env w db z req).response.status = 201 ∨
      ∃ j, (handler env w db z req).response.body = some j ∧ j.isSuccess = true) :
    w.save = none ∧
    ∃ c pre post, (handler env w db z req).trace
        = pre ++ [.saveCalled c, .saveCompleted] ++ post ∧
      post.getLast? = some (.responded 201) ∧
      (∀ st, Event.responded st ∉ pre) ∧
      (∀ m, Event.saveThrew m ∉ (handler env w db z req).trace) := by
  rcases handler_cases env w db z req with ⟨_, hr⟩ | ⟨_, _, hr⟩ | ⟨_, msg, db1, _, hr⟩ |
    ⟨_, c, db1, _, ⟨_, msg, hr⟩ | ⟨body, _, ⟨e, _, hr⟩ | ⟨_, ⟨_, hr⟩ | ⟨msg, _, hr⟩ |
      ⟨hs, _, _, hr⟩⟩⟩⟩
  all_goals rw [hr] at h ⊢
  all_goals try (simp [internalError, failureJson] at h; done)
  refine ⟨hs, _, [.dbConnectCalled, .validateCalled], _, rfl, ?_, ?_, ?_⟩ <;> simp

theorem eachAfter_spec (p q : Event → Bool) (t : List Event) (h : eachAfter p q t = true)
    (pre : List Event) (e : Event) (post : List Event) (ht : t = pre ++ e :: post)
    (hq : q e = true) : ∃ x ∈ pre, p x = true := by
  induction t generalizing pre with
  | nil => simp at ht
  | cons a t ih =>
    cases pre with
    | nil =>
      simp only [List.nil_append, List.cons.injEq] at ht
      obtain ⟨rfl, -⟩ := ht
      simp [eachAfter, hq] at h
    | cons b pre =>
      simp only [List.cons_append, List.cons.injEq] at ht
      obtain ⟨rfl, ht⟩ := ht
      simp only [eachAfter, Bool.or_eq_true, Bool.and_eq_true, Bool.not_eq_true'] at h
      rcases h with ⟨-, h | h⟩
      · exact ⟨a, by simp, h⟩
      · obtain ⟨x, hx, hp⟩ := ih h pre ht
        exact ⟨x, by simp [hx], hp⟩

theorem noneSatisfy_spec (q : Event → Bool) (t : List Event) (h : t.any q = false) :
    ∀ e ∈ t, q e = false := by
  intro e he
  rw [List.any_eq_false] at h
  simpa using h e he

/-- C4: within one request the save is invoked only after validation passed;
`createZohoContact` and `sendMailWithRetry` are invoked only after validation passed and
the save completed; and after a validation failure, a connect failure or a save failure
neither the CRM nor the mail sender is called. -/
theorem dispatch_only_after_validation_and_save (env : Env) (w : World) (db : DbState)
    (z : ZohoState) (req : Request) :
    (∀ pre e post, (handler env w db z req).trace = pre ++ e :: post → e.isSave = true →
      Event.validateCalled ∈ pre ∧
      ∃ body, req.body = some body ∧
        contactValidationSchema w.isEmail body.destructure = none) ∧
    (∀ pre e post, (handler env w db z req).trace = pre ++ e :: post → e.isDispatch = true →
      Event.validateCalled ∈ pre ∧ Event.saveCompleted ∈ pre ∧ w.save = none ∧
      ∃ body, req.body = some body ∧
        contactValidationSchema w.isEmail body.destructure = none) ∧
    (((∃ body e, req.body = some body ∧
          contactValidationSchema w.isEmail body.destructure = some e) ∨
        (∃ msg db1, dbConnect w.connect 3 1000 db = (.threw msg, db1)) ∨
        (∃ msg, Event.saveThrew msg ∈ (handler env w db z req).trace)) →
      ∀ e ∈ (handler env w db z req).trace, e.isDispatch = false) := by
  have key : eachAfter (fun e => e == .validateCalled) Event.isSave
        (handler env w db z req).trace = true ∧
      eachAfter (fun e => e == .validateCalled) Event.isDispatch
        (handler env w db z req).trace = true ∧
      eachAfter (fun e => e == .saveCompleted) Event.isDispatch
        (handler env w db z req).trace = true ∧
      ((handler env w db z req).trace.any Event.isSave = true →
        ∃ body, req.body = some body ∧
          contactValidationSchema w.isEmail body.destructure = none) ∧
      ((handler env w db z req).trace.any Event.isDispatch = true →
        w.save = none ∧ ∃ body, req.body = some body ∧
          contactValidationSchema w.isEmail body.destructure = none) ∧
      (((∃ body e, req.body = some body ∧
          contactValidationSchema w.isEmail body.destructure = some e) ∨
        (∃ msg db1, dbConnect w.connect 3 1000 db = (.threw msg, db1)) ∨
        (∃ msg, Event.saveThrew msg ∈ (handler env w db z req).trace)) →
        (handler env w db z req).trace.any Event.isDispatch = false) := by
    rcases handler_cases env w db z req with ⟨_, hr⟩ | ⟨_, _, hr⟩ | ⟨_, msg, db1, hdb, hr⟩ |
      ⟨_, c, db1, hdb, ⟨hb, msg, hr⟩ | ⟨body, hb, ⟨e, hv, hr⟩ | ⟨hv, ⟨_, hr⟩ | ⟨msg, hs, hr⟩ |
        ⟨hs, _, _, hr⟩⟩⟩⟩
    all_goals rw [hr]
    all_goals simp [eachAfter, Event.isSave, Event.isDispatch, *]
  obtain ⟨k1, k2, k3, k4, k5, k6⟩ := key
  refine ⟨?_, ?_, ?_⟩
  · intro pre e post ht he
    obtain ⟨x, hx, hp⟩ := eachAfter_spec _ _ _ k1 pre e post ht he
    have hx2 : x = .validateCalled := by simpa using hp
    refine ⟨hx2 ▸ hx, k4 ?_⟩
    rw [ht]; simp [he]
  · intro pre e post ht he
    obtain ⟨x, hx, hp⟩ := eachAfter_spec _ _ _ k2 pre e post ht he
    have hx2 : x = .validateCalled := by simpa using hp
    obtain ⟨y, hy, hq⟩ := eachAfter_spec _ _ _ k3 pre e post ht he
    have hy2 : y = .saveCompleted := by simpa using hq
    have := k5 (by rw [ht]; simp [he])
    exact ⟨hx2 ▸ hx, hy2 ▸ hy, this.1, this.2⟩
  · intro h
    exact noneSatisfy_spec _ _ (k6 h)

theorem specOk_destructure (isEmail : String → Bool) (body : Body) (f : Field) :
    f.specOk isEmail body.destructure = f.specOk isEmail body := by
  cases f <;> simp only [Field.specOk, Body.destructure]
  cases hm : body.message <;> simp [specMessageOk, jsLength_empty]

theorem field_valid_iff (isEmail : String → Bool) (hE : isEmail "" = false) (b : Body)
    (f : Field) :
    validateString isEmail f.schema f.key (f.value b) = none ↔ f.specOk isEmail b = true := by
  cases f
  · exact name_field_iff isEmail b.name
  · exact email_field_iff isEmail hE b.email
  · exact number_field_iff isEmail b.number
  · exact message_field_iff isEmail b.message

theorem field_error_names (isEmail : String → Bool) (f : Field) (v : JsVal) (e : JoiError)
    (h : validateString isEmail f.schema f.key v = some e) :
    e.key = f.key ∧ namesField f e.message = true := by
  cases f <;> cases v with
  | str s =>
    simp only [validateString, Field.schema, Field.key, nameSchema, emailSchema, numberSchema,
      messageSchema, runRules, List.not_mem_nil, List.mem_singleton, if_false, hasMinZero] at h
    split_ifs at h <;> simp only [Option.some.injEq, reduceCtorEq] at h <;> subst h <;>
      exact ⟨rfl, rfl⟩
  | _ =>
    simp only [validateString, Field.schema, Field.key, nameSchema, emailSchema, numberSchema,
      messageSchema, if_true, Option.some.injEq, Bool.false_eq_true, if_false, reduceCtorEq] at h
    try (subst h; exact ⟨rfl, rfl⟩)

theorem schema_eq_first_failure (isEmail : String → Bool) (hE : isEmail "" = false) (b : Body)
    (f : Field) (hfirst : ∀ g : Field, g.order < f.order → g.specOk isEmail b = true) :
    contactValidationSchema isEmail b =
      match validateString isEmail f.schema f.key (f.value b) with
      | some e => some e
      | none => if f = .message then none else contactValidationSchema isEmail b := by
  have hn := (field_valid_iff isEmail hE b .name).2
  have he := (field_valid_iff isEmail hE b .email).2
  have hp := (field_valid_iff isEmail hE b .number).2
  simp only [Field.schema, Field.key, Field.value] at hn he hp
  cases f
  · simp only [contactValidationSchema, validateObject, Field.schema, Field.key, Field.value]
    cases validateString isEmail nameSchema "name" b.name <;> simp
  · have h0 := hn (hfirst .name (by decide))
    simp only [contactValidationSchema, validateObject, Field.schema, Field.key, Field.value, h0]
    cases validateString isEmail emailSchema "email" b.email <;> simp
  · have h0 := hn (hfirst .name (by decide))
    have h1 := he (hfirst .email (by decide))
    simp only [contactValidationSchema, validateObject, Field.schema, Field.key, Field.value, h0,
      h1]
    cases validateString isEmail numberSchema "number" b.number <;> simp
  · have h0 := hn (hfirst .name (by decide))
    have h1 := he (hfirst .email (by decide))
    have h2 := hp (hfirst .number (by decide))
    simp only [contactValidationSchema, validateObject, Field.schema, Field.key, Field.value, h0,
      h1, h2]
    cases validateString isEmail messageSchema "message" b.message <;> simp

theorem first_failure_reported (isEmail : String → Bool) (hE : isEmail "" = false) (b : Body)
    (f : Field) (hbad : f.specOk isEmail b = false)
    (hfirst : ∀ g : Field, g.order < f.order → g.specOk isEmail b = true) :
    ∃ e, contactValidationSchema isEmail b = some e ∧
      validateString isEmail f.schema f.key (f.value b) = some e ∧
      e.key = f.key ∧ namesField f e.message = true := by
  have h := schema_eq_first_failure isEmail hE b f hfirst
  cases hv : validateString isEmail f.schema f.key (f.value b) with
  | none =>
    have := (field_valid_iff isEmail hE b f).1 hv
    rw [hbad] at this; cases this
  | some e =>
    rw [hv] at h
    exact ⟨e, h, rfl, field_error_names isEmail f _ e hv⟩

theorem exists_first_invalid (isEmail : String → Bool) (b : Body) (f : Field)
    (hbad : f.specOk isEmail b = false) :
    ∃ g : Field, g.specOk isEmail b = false ∧
      ∀ g2 : Field, g2.order < g.order → g2.specOk isEmail b = true := by
  by_cases h0 : Field.specOk isEmail b .name = false
  · exact ⟨.name, h0, fun g2 hg => by cases g2 <;> simp [Field.order] at hg⟩
  by_cases h1 : Field.specOk isEmail b .email = false
  · refine ⟨.email, h1, fun g2 hg => ?_⟩
    cases g2 <;> simp [Field.order] at hg
    simpa using h0
  by_cases h2 : Field.specOk isEmail b .number = false
  · refine ⟨.number, h2, fun g2 hg => ?_⟩
    cases g2 <;> simp [Field.order] at hg
    · simpa using h0
    · simpa using h1
  refine ⟨.message, ?_, fun g2 hg => ?_⟩
  · cases f
    · exact absurd hbad h0
    · exact absurd hbad h1
    · exact absurd hbad h2
    · exact hbad
  · cases g2 <;> simp [Field.order] at hg
    · simpa using h0
    · simpa using h1
    · simpa using h2

/-- C6: when fields are invalid, the validation surfaces one error, the one of the first
invalid field in the order name, email, number, message, whatever the later fields hold;
two validations of the same input give the same verdict and the same message. -/
theorem first_invalid_field_is_reported (isEmail : String → Bool) (hE : isEmail "" = false)
    (b : Body) (f : Field) (hbad : f.specOk isEmail b = false)
    (hfirst : ∀ g : Field, g.order < f.order → g.specOk isEmail b = true) :
    (∃ e, contactValidationSchema isEmail b = some e ∧ e.key = f.key ∧
      validateString isEmail f.schema f.key (f.value b) = some e ∧
      namesField f e.message = true) ∧
    (∀ r1 r2, r1 = contactValidationSchema isEmail b → r2 = contactValidationSchema isEmail b →
      r1 = r2 ∧ r1.map JoiError.message = r2.map JoiError.message) := by
  obtain ⟨e, h1, h2, h3, h4⟩ := first_failure_reported isEmail hE b f hbad hfirst
  exact ⟨⟨e, h1, h3, h2, h4⟩, fun r1 r2 e1 e2 => by subst e1; subst e2; exact ⟨rfl, rfl⟩⟩

theorem schema_accepts_of_fields (isEmail : String → Bool) (hE : isEmail "" = false) (b : Body)
    (h : ∀ f : Field, f.specOk isEmail b = true) : contactValidationSchema isEmail b = none := by
  have hn := (field_valid_iff isEmail hE b .name).2 (h .name)
  have he := (field_valid_iff isEmail hE b .email).2 (h .email)
  have hp := (field_valid_iff isEmail hE b .number).2 (h .number)
  have hm := (field_valid_iff isEmail hE b .message).2 (h .message)
  simp only [Field.schema, Field.key, Field.value] at hn he hp hm
  simp [contactValidationSchema, validateObject, hn, he, hp, hm]

/-- C2: for a POST with valid input the save is invoked at most once; it completes exactly
when the store connects and the save does not throw, and then the response is 201 with
`isSuccess = true` for every behaviour of the CRM sync and of the two mail sends (all of
them are fields of the world `w`, which is arbitrary). -/
theorem valid_post_accepted_whatever_crm_and_mail_do (env : Env) (hload : moduleLoads env = true)
    (w : World) (hE : w.isEmail "" = false) (db : DbState) (z : ZohoState) (body : Body)
    (hvalid : ∀ f : Field, f.specOk w.isEmail body = true) :
    ((handler env w db z ⟨"POST", some body⟩).trace.filter Event.isSave).length ≤ 1 ∧
    (Event.saveCompleted ∈ (handler env w db z ⟨"POST", some body⟩).trace ↔
      (∃ c db1, dbConnect w.connect 3 1000 db = (.returned c, db1)) ∧ w.save = none) ∧
    (Event.saveCompleted ∈ (handler env w db z ⟨"POST", some body⟩).trace →
      (handler env w db z ⟨"POST", some body⟩).response.status = 201 ∧
      ∃ j, (handler env w db z ⟨"POST", some body⟩).response.body = some j ∧
        j.isSuccess = true) := by
  have hv : contactValidationSchema w.isEmail body.destructure = none :=
    schema_accepts_of_fields w.isEmail hE _ (fun f => by rw [specOk_destructure]; exact hvalid f)
  rcases handler_cases env w db z ⟨"POST", some body⟩ with ⟨hm, _⟩ | ⟨_, hm, _⟩ |
    ⟨_, msg, db1, hdb, hr⟩ |
    ⟨_, c, db1, hdb, ⟨hb, _⟩ | ⟨body2, hb, ⟨e, hv2, hr⟩ | ⟨_, ⟨hl, hr⟩ | ⟨msg, hs, hr⟩ |
      ⟨hs, _, _, hr⟩⟩⟩⟩
  · simp at hm
  · simp at hm
  · rw [hr]; simp [Event.isSave, hdb]
  · simp at hb
  · simp only [Option.some.injEq] at hb; subst hb; rw [hv] at hv2; cases hv2
  · rw [hload] at hl; cases hl
  · rw [hr]; simp [Event.isSave, hdb, hs]
  · rw [hr]; simp [Event.isSave, hdb, hs, respondAccepted_status]
    exact respondAccepted_isSuccess env w z _

/-- C8: on a POST, when `dbConnect` throws or the save throws, the response is 500 with
`isSuccess = false` and the message `Internal Server Error`, and never 201. -/
theorem store_failure_gives_500 (env : Env) (w : World) (db : DbState) (z : ZohoState)
    (req : Request) (hpost : req.method = "POST")
    (h : (∃ msg db1, dbConnect w.connect 3 1000 db = (.threw msg, db1)) ∨
      ∃ msg, Event.saveThrew msg ∈ (handler env w db z req).trace) :
    (∃ err, (handler env w db z req).response =
      ⟨500, corsHeaders, some ⟨false, "Internal Server Error", err, none, none, none, none⟩⟩) ∧
    (handler env w db z req).response.status ≠ 201 := by
  rcases handler_cases env w db z req with ⟨hm, _⟩ | ⟨_, hm, _⟩ |
    ⟨_, msg, db1, hdb, hr⟩ |
    ⟨_, c, db1, hdb, ⟨hb, msg, hr⟩ | ⟨body2, hb, ⟨e, hv2, hr⟩ | ⟨_, ⟨hl, hr⟩ | ⟨msg, hs, hr⟩ |
      ⟨hs, _, _, hr⟩⟩⟩⟩
  · rw [hpost] at hm; simp at hm
  · exact absurd hpost hm
  · rw [hr]; exact ⟨⟨_, rfl⟩, by simp [internalError]⟩
  all_goals rw [hr] at h ⊢
  all_goals simp only [hdb, Prod.mk.injEq, reduceCtorEq, false_and, exists_false, false_or,
    List.mem_cons, List.mem_singleton, List.not_mem_nil, or_false, exists_const] at h
  · rcases h with ⟨m, hm⟩
    exact ⟨⟨_, rfl⟩, by simp [internalError]⟩

theorem short_name_error (isEmail : String → Bool) (n : String) (hn : jsLength n = 1) :
    validateString isEmail nameSchema "name" (.str n) =
      some ⟨"name", "string.min", "* Name must be at least 2 characters long"⟩ := by
  have hne : n ≠ "" := by
    intro h; subst h; simp [jsLength_empty] at hn
  simp only [validateString, nameSchema, runRules, List.not_mem_nil, if_false, hne, hn]
  rfl

/-- C3 (amended): when `dbConnect` returns, a POST whose input violates a field rule is
answered 400 with `isSuccess = false`, the message `Validation Error` and an error text that
names a violated field; nothing is saved or dispatched; for a name of length 1 the error
text is `* Name must be at least 2 characters long`. -/
theorem invalid_input_rejected_when_store_connects (env : Env) (w : World)
    (hE : w.isEmail "" = false) (db : DbState) (z : ZohoState) (body : Body) (f : Field)
    (hbad : f.specOk w.isEmail body = false)
    (hconn : ∃ c db1, dbConnect w.connect 3 1000 db = (.returned c, db1)) :
    ∃ g msg, g.specOk w.isEmail body = false ∧ namesField g msg = true ∧
      (handler env w db z ⟨"POST", some body⟩).response =
        ⟨400, corsHeaders, some ⟨false, "Validation Error", some msg, none, none, none, none⟩⟩ ∧
      (∀ e ∈ (handler env w db z ⟨"POST", some body⟩).trace,
        e.isSave = false ∧ e.isDispatch = false) ∧
      (∀ n, body.name = .str n → jsLength n = 1 →
        msg = "* Name must be at least 2 characters long") := by
  obtain ⟨g, hg, hfirst⟩ := exists_first_invalid w.isEmail body f hbad
  have hg2 : g.specOk w.isEmail body.destructure = false := by rw [specOk_destructure]; exact hg
  have hfirst2 : ∀ g2 : Field, g2.order < g.order → g2.specOk w.isEmail body.destructure = true :=
    fun g2 h => by rw [specOk_destructure]; exact hfirst g2 h
  obtain ⟨e, he, hfe, -, hnames⟩ := first_failure_reported w.isEmail hE _ g hg2 hfirst2
  obtain ⟨c0, db0, hdb0⟩ := hconn
  rcases handler_cases env w db z ⟨"POST", some body⟩ with ⟨hm, _⟩ | ⟨_, hm, _⟩ |
    ⟨_, msg, db1, hdb, hr⟩ |
    ⟨_, c, db1, hdb, ⟨hb, _⟩ | ⟨body2, hb, ⟨e2, hv2, hr⟩ | ⟨hv2, _⟩⟩⟩
  · simp at hm
  · simp at hm
  · rw [hdb0] at hdb; simp at hdb
  · simp at hb
  · simp only [Option.some.injEq] at hb; subst hb
    rw [he] at hv2
    simp only [Option.some.injEq] at hv2; subst hv2
    refine ⟨g, e.message, hg, hnames, ?_, ?_, ?_⟩
    · rw [hr]; rfl
    · rw [hr]; simp [Event.isSave, Event.isDispatch]
    · intro n hn hlen
      have hname : g = .name := by
        by_contra hne
        have : Field.specOk w.isEmail body .name = true :=
          hfirst .name (by cases g <;> simp [Field.order] at hne ⊢)
        simp [Field.specOk, hn, specNameOk, hlen] at this
      subst hname
      simp only [Field.schema, Field.key, Field.value, Body.destructure, hn] at hfe
      rw [short_name_error w.isEmail n hlen] at hfe
      simp only [Option.some.injEq] at hfe
      rw [← hfe]
  · simp only [Option.some.injEq] at hb; subst hb
    rw [he] at hv2; cases hv2

theorem refresh_success_inv (env : ZohoEnv) (ext : Ext) (s : ZohoState) (tok : String)
    (ok err : Bool) (at0 : Option String) (L : Option Int)
    (hreply : ext.auth s.authCalls = .json ok err at0 L)
    (hsucc : (refreshZohoAccessToken env ext s).1 = some tok) :
    at0 = some tok ∧
    (refreshZohoAccessToken env ext s).2.cache =
      ⟨some tok, L.map (fun l => ext.clock s.ticks + (l - 60) * 1000)⟩ := by
  unfold refreshZohoAccessToken at hsucc ⊢
  simp only [hreply] at hsucc ⊢
  split_ifs at hsucc ⊢
  all_goals simp_all

/-- C9: after `refreshZohoAccessToken` succeeded at time `T` (ms, not before the epoch) with
`expires_in = L > 60`, and as long as the cache holds what that refresh stored, a
`getZohoAccessToken` call at a time `t < T + (L - 60) * 1000` returns the cached token
without a refresh or a call of the token endpoint, and a call at a time
`t ≥ T + (L - 60) * 1000` performs a new refresh, which calls the endpoint. -/
theorem cached_token_reused_until_expiry (env : ZohoEnv) (ext : Ext) (s : ZohoState)
    (tok : String) (L : Int) (ok err : Bool)
    (hreply : ext.auth s.authCalls = .json ok err (some tok) (some L))
    (hsucc : (refreshZohoAccessToken env ext s).1 = some tok)
    (htok : truthy tok = true) (hL : 60 < L) (hT : 0 ≤ ext.clock s.ticks)
    (ext2 : Ext) (s2 : ZohoState)
    (hcache : s2.cache = (refreshZohoAccessToken env ext s).2.cache) :
    (ext2.clock s2.ticks < ext.clock s.ticks + (L - 60) * 1000 →
      getZohoAccessToken env ext2 s2 = (some tok, { s2 with ticks := s2.ticks + 1 }) ∧
      (getZohoAccessToken env ext2 s2).2.authCalls = s2.authCalls ∧
      (getZohoAccessToken env ext2 s2).2.refreshCalls = s2.refreshCalls) ∧
    (ext.clock s.ticks + (L - 60) * 1000 ≤ ext2.clock s2.ticks →
      getZohoAccessToken env ext2 s2 =
        refreshZohoAccessToken env ext2 { s2 with ticks := s2.ticks + 1 } ∧
      (getZohoAccessToken env ext2 s2).2.refreshCalls = s2.refreshCalls + 1 ∧
      (getZohoAccessToken env ext2 s2).2.authCalls = s2.authCalls + 1) := by
  obtain ⟨-, hc⟩ := refresh_success_inv env ext s tok ok err _ _ hreply hsucc
  rw [hc] at hcache
  have hcreds : (!truthy env.clientId || !truthy env.clientSecret || !truthy env.refreshToken)
      = false := by
    by_contra hne
    simp only [Bool.not_eq_false] at hne
    simp [refreshZohoAccessToken, hne] at hsucc
  have hexp : (ext.clock s.ticks + (L - 60) * 1000 != 0) = true := by
    simp only [bne_iff_ne, ne_eq]
    nlinarith
  constructor
  · intro hlt
    have : getZohoAccessToken env ext2 s2 = (some tok, { s2 with ticks := s2.ticks + 1 }) := by
      unfold getZohoAccessToken
      simp only [hcache, Option.map_some', htok, hexp, Bool.and_self, if_true, hlt]
    rw [this]
    exact ⟨rfl, rfl, rfl⟩
  · intro hge
    have hnlt : ¬ ext2.clock s2.ticks < ext.clock s.ticks + (L - 60) * 1000 := not_lt.mpr hge
    have : getZohoAccessToken env ext2 s2 =
        refreshZohoAccessToken env ext2 { s2 with ticks := s2.ticks + 1 } := by
      unfold getZohoAccessToken
      simp only [hcache, Option.map_some', htok, hexp, Bool.and_self, if_true, hnlt, if_false]
    rw [this]
    refine ⟨rfl, ?_, ?_⟩
    · unfold refreshZohoAccessToken
      simp only [hcreds]
      cases ext2.auth s2.authCalls with
      | threw m => simp
      | json ok2 err2 t2 l2 => simp only [Bool.false_eq_true, if_false]; split_ifs <;> rfl
    · unfold refreshZohoAccessToken
      simp only [hcreds]
      cases ext2.auth s2.authCalls with
      | threw m => simp
      | json ok2 err2 t2 l2 => simp only [Bool.false_eq_true, if_false]; split_ifs <;> rfl

theorem refresh_posts (env : ZohoEnv) (ext : Ext) (s : ZohoState) :
    (refreshZohoAccessToken env ext s).2.posts = s.posts ∧
    (refreshZohoAccessToken env ext s).2.refreshCalls = s.refreshCalls + 1 := by
  unfold refreshZohoAccessToken
  simp only []
  split_ifs
  · exact ⟨rfl, rfl⟩
  · cases ext.auth s.authCalls with
    | threw m => exact ⟨rfl, rfl⟩
    | json ok2 err2 t2 l2 => simp only []; split_ifs <;> exact ⟨rfl, rfl⟩

/-- C10 (amended): in `createZohoContact`, when the first lead POST returns 401 with a JSON
body, exactly one `refreshZohoAccessToken` call follows, whatever the cache holds; when it
yields a token there is exactly one retry, with the same body and the new token, and when
that retry returns OK with a JSON body the outcome is a success; when it yields no token
there is no retry. A non-OK first response with another status triggers no refresh and no
retry and gives a failure. -/
theorem unauthorized_gives_one_refresh_and_one_retry (env : ZohoEnv) (ext : Ext)
    (s : ZohoState) (c : ContactData) (tok : String) (s1 : ZohoState)
    (hget : getZohoAccessToken env ext s = (some tok, s1)) (htok : truthy tok = true) :
    (∀ result, ext.crm s1.posts.length = .resp 401 (.json result) →
      (createZohoContact env ext s c).2.refreshCalls = s1.refreshCalls + 1 ∧
      (∀ nt, (refreshZohoAccessToken env ext
            { s1 with posts := s1.posts ++ [⟨tok, buildLead c⟩] }).1 = some nt →
          truthy nt = true →
        (createZohoContact env ext s c).2.posts =
          s1.posts ++ [⟨tok, buildLead c⟩, ⟨nt, buildLead c⟩] ∧
        (∀ st j, ext.crm (s1.posts.length + 1) = .resp st (.json j) → isOk st = true →
          (createZohoContact env ext s c).1 = .success j)) ∧
      ((∀ nt, (refreshZohoAccessToken env ext
            { s1 with posts := s1.posts ++ [⟨tok, buildLead c⟩] }).1 = some nt →
          truthy nt = false) →
        (createZohoContact env ext s c).2.posts = s1.posts ++ [⟨tok, buildLead c⟩])) ∧
    (∀ status body, ext.crm s1.posts.length = .resp status body → isOk status = false →
      status ≠ 401 →
      (createZohoContact env ext s c).2.refreshCalls = s1.refreshCalls ∧
      (createZohoContact env ext s c).2.authCalls = s1.authCalls ∧
      (createZohoContact env ext s c).2.posts = s1.posts ++ [⟨tok, buildLead c⟩] ∧
      ∃ e, (createZohoContact env ext s c).1 = .failure e) := by
  constructor
  · intro result h401
    have h401ok : isOk 401 = false := by decide
    obtain ⟨hp, hrc⟩ := refresh_posts env ext { s1 with posts := s1.posts ++ [⟨tok, buildLead c⟩] }
    rcases hr : refreshZohoAccessToken env ext
        { s1 with posts := s1.posts ++ [⟨tok, buildLead c⟩] } with ⟨newToken, s3⟩
    rw [hr] at hp hrc
    simp only [] at hp hrc
    have hlen : s3.posts.length = s1.posts.length + 1 := by rw [hp]; simp
    unfold createZohoContact
    simp only [hget, htok, postLead, h401, h401ok, hr, Bool.not_true, Bool.false_eq_true,
      if_false, Bool.not_false, if_true]
    cases newToken with
    | none => simp [hrc, hp]
    | some nt =>
      by_cases hnt : truthy nt = true
      · simp only [hnt, Bool.not_true, Bool.false_eq_true, if_false, hlen]
        refine ⟨?_, ?_, ?_⟩
        · rcases ext.crm (s1.posts.length + 1) with m | ⟨st, m | j⟩
          · simpa using hrc
          · simpa using hrc
          · simp only []; split_ifs <;> simpa using hrc
        · intro nt2 hnt2 _
          simp only [Option.some.injEq] at hnt2; subst hnt2
          refine ⟨?_, ?_⟩
          · rcases ext.crm (s1.posts.length + 1) with m | ⟨st, m | j⟩
            · simp [hp]
            · simp [hp]
            · simp only []; split_ifs <;> simp [hp]
          · intro st j hj hok
            simp [hj, hok]
        · intro hall
          have := hall nt rfl
          rw [hnt] at this; cases this
      · simp only [Bool.not_eq_true] at hnt
        simp [hnt, hrc, hp]
  · intro status body hresp hnok hne
    unfold createZohoContact
    simp only [hget, htok, postLead, hresp, Bool.not_true, Bool.false_eq_true, if_false]
    cases body with
    | unparsable m => simp
    | json result =>
      simp only [hnok, Bool.not_false, if_true, hne, if_false]
      refine ⟨trivial, trivial, trivial, ?_⟩
      unfold leadFailure
      rcases result with _ | ⟨_ | m, p⟩
      · exact ⟨_, rfl⟩
      · exact ⟨_, rfl⟩
      · simp only []; split_ifs <;> exact ⟨_, rfl⟩

/-- Witness of C1: the request of the scenario `Jo` in a world where everything works. -/
theorem accepted_only_after_save_witness :
    (handler sampleEnv sampleWorld DbState.fresh ZohoState.fresh
      ⟨"POST", some joBody⟩).response.status = 201 ∧
    sampleWorld.save = none ∧
    ∃ c pre post, (handler sampleEnv sampleWorld DbState.fresh ZohoState.fresh
        ⟨"POST", some joBody⟩).trace = pre ++ [.saveCalled c, .saveCompleted] ++ post ∧
      post.getLast? = some (.responded 201) ∧
      (∀ st, Event.responded st ∉ pre) ∧
      (∀ m, Event.saveThrew m ∉ (handler sampleEnv sampleWorld DbState.fresh ZohoState.fresh
        ⟨"POST", some joBody⟩).trace) :=
  ⟨by decide,
   accepted_only_after_save sampleEnv sampleWorld DbState.fresh ZohoState.fresh
     ⟨"POST", some joBody⟩ (Or.inl (by decide))⟩

/-- Witness of C2: the request of the scenario `Jo` is answered 201. -/
theorem valid_post_accepted_whatever_crm_and_mail_do_witness :
    moduleLoads sampleEnv = true ∧ sampleWorld.isEmail "" = false ∧
    (∀ f : Field, f.specOk sampleWorld.isEmail joBody = true) ∧
    (handler sampleEnv sampleWorld DbState.fresh ZohoState.fresh
      ⟨"POST", some joBody⟩).response.status = 201 :=
  ⟨by decide, by decide, fun f => by cases f <;> decide,
   ((valid_post_accepted_whatever_crm_and_mail_do sampleEnv (by decide) sampleWorld (by decide)
      DbState.fresh ZohoState.fresh joBody (fun f => by cases f <;> decide)).2.2
      (by decide)).1⟩

/-- C3 (counterexample): with an unreachable store, a POST with a name of length 1 is
answered 500 and not 400. -/
theorem invalid_input_with_store_down_gets_500 :
    Field.specOk downWorld.isEmail shortNameBody .name = false ∧
    (∃ msg db1, dbConnect downWorld.connect 3 1000 DbState.fresh = (.threw msg, db1)) ∧
    (handler sampleEnv downWorld DbState.fresh ZohoState.fresh
      ⟨"POST", some shortNameBody⟩).response.status = 500 ∧
    (handler sampleEnv downWorld DbState.fresh ZohoState.fresh
      ⟨"POST", some shortNameBody⟩).response.status ≠ 400 :=
  ⟨by decide, ⟨_, _, rfl⟩, by decide, by decide⟩

/-- Witness of C3 (amended): a name of length 1 with a reachable store. -/
theorem invalid_input_rejected_when_store_connects_witness :
    sampleWorld.isEmail "" = false ∧
    Field.specOk sampleWorld.isEmail shortNameBody .name = false ∧
    ∃ g msg, g.specOk sampleWorld.isEmail shortNameBody = false ∧ namesField g msg = true ∧
      (handler sampleEnv sampleWorld DbState.fresh ZohoState.fresh
        ⟨"POST", some shortNameBody⟩).response =
        ⟨400, corsHeaders, some ⟨false, "Validation Error", some msg, none, none, none, none⟩⟩ ∧
      (∀ e ∈ (handler sampleEnv sampleWorld DbState.fresh ZohoState.fresh
          ⟨"POST", some shortNameBody⟩).trace, e.isSave = false ∧ e.isDispatch = false) ∧
      (∀ n, shortNameBody.name = .str n → jsLength n = 1 →
        msg = "* Name must be at least 2 characters long") :=
  ⟨by decide, by decide,
   invalid_input_rejected_when_store_connects sampleEnv sampleWorld (by decide) DbState.fresh
     ZohoState.fresh shortNameBody .name (by decide) ⟨_, _, rfl⟩⟩

/-- Witness of C4: in the run of the scenario `Jo` the CRM call comes after the validation
and after the completed save. -/
theorem dispatch_only_after_validation_and_save_witness :
    Event.validateCalled ∈ [Event.dbConnectCalled, .validateCalled,
        .saveCalled joBody.destructure.contact, .saveCompleted] ∧
    Event.saveCompleted ∈ [Event.dbConnectCalled, .validateCalled,
        .saveCalled joBody.destructure.contact, .saveCompleted] ∧
    sampleWorld.save = none ∧
    ∃ body, (⟨"POST", some joBody⟩ : Request).body = some body ∧
      contactValidationSchema sampleWorld.isEmail body.destructure = none :=
  (dispatch_only_after_validation_and_save sampleEnv sampleWorld DbState.fresh ZohoState.fresh
    ⟨"POST", some joBody⟩).2.1
    [.dbConnectCalled, .validateCalled, .saveCalled joBody.destructure.contact, .saveCompleted]
    (.createZohoContactCalled joBody.destructure.contact)
    [.sendMailWithRetryCalled "jo@x.com" "Thank You For Contacting Azalea",
     .sendMailWithRetryCalled "info@azalea.test" "New Contact Form Submission - Azalea",
     .responded 201]
    (by decide) rfl

/-- Witness of C5: the input of the scenario `Jo`. -/
theorem contactValidationSchema_accepts_iff_witness :
    sampleIsEmail "" = false ∧
    (contactValidationSchema sampleIsEmail joBody = none ↔
      (∃ n, joBody.name = .str n ∧ 2 ≤ jsLength n ∧ jsLength n ≤ 50) ∧
      (∃ e, joBody.email = .str e ∧ sampleIsEmail e = true) ∧
      (∃ p, joBody.number = .str p ∧ phonePattern.test p = true) ∧
      (joBody.message = .undefined ∨ ∃ m, joBody.message = .str m ∧ jsLength m ≤ 500)) :=
  ⟨by decide, contactValidationSchema_accepts_iff sampleIsEmail (by decide) joBody⟩

/-- Witness of C6: an input whose four fields are all invalid gets the error of `name`. -/
theorem first_invalid_field_is_reported_witness :
    sampleIsEmail "" = false ∧
    Field.specOk sampleIsEmail manyInvalidBody .name = false ∧
    Field.specOk sampleIsEmail manyInvalidBody .email = false ∧
    Field.specOk sampleIsEmail manyInvalidBody .number = false ∧
    Field.specOk sampleIsEmail manyInvalidBody .message = false ∧
    ∃ e, contactValidationSchema sampleIsEmail manyInvalidBody = some e ∧ e.key = "name" ∧
      validateString sampleIsEmail nameSchema "name" manyInvalidBody.name = some e ∧
      namesField .name e.message = true :=
  ⟨by decide, by decide, by decide, by decide, by decide,
   (first_invalid_field_is_reported sampleIsEmail (by decide) manyInvalidBody .name (by decide)
     (fun g hg => by cases g <;> simp [Field.order] at hg)).1⟩

/-- Witness of C8: an unreachable store. -/
theorem store_failure_gives_500_witness :
    (∃ msg db1, dbConnect downWorld.connect 3 1000 DbState.fresh = (.threw msg, db1)) ∧
    (∃ err, (handler sampleEnv downWorld DbState.fresh ZohoState.fresh
        ⟨"POST", some joBody⟩).response =
      ⟨500, corsHeaders, some ⟨false, "Internal Server Error", err, none, none, none, none⟩⟩) ∧
    (handler sampleEnv downWorld DbState.fresh ZohoState.fresh
      ⟨"POST", some joBody⟩).response.status ≠ 201 :=
  ⟨⟨_, _, rfl⟩,
   store_failure_gives_500 sampleEnv downWorld DbState.fresh ZohoState.fresh
     ⟨"POST", some joBody⟩ rfl (Or.inl ⟨_, _, rfl⟩)⟩

/-- C7 (failing input): the first connection attempt is refused and the later ones would
succeed, yet `dbConnect` calls `mongoose.connect` once, waits 1000 and 2000 ms awaiting the
same rejected promise again, and throws. -/
theorem dbConnect_retries_await_the_rejected_promise :
    flakyConnect 1 = .resolved 7 ∧
    dbConnect flakyConnect 3 1000 DbState.fresh =
      (.threw "MongoDB connection failed after 3 attempts: ECONNREFUSED",
       ⟨none, some (.rejected "ECONNREFUSED"), 1, [1000, 2000]⟩) := by
  decide

/-- Witness of C9: a token granted for an hour at the instant 1000000 is handed out at the
instant 1000001 without a refresh. -/
theorem cached_token_reused_until_expiry_witness :
    (refreshZohoAccessToken sampleEnv.zoho sampleExt ZohoState.fresh).1 = some "tok" ∧
    getZohoAccessToken sampleEnv.zoho sampleExt
        (refreshZohoAccessToken sampleEnv.zoho sampleExt ZohoState.fresh).2 =
      (some "tok", ⟨⟨some "tok", some 4540000⟩, 2, 1, 1, []⟩) :=
  ⟨by decide,
   ((cached_token_reused_until_expiry sampleEnv.zoho sampleExt ZohoState.fresh "tok" 3600
      true false rfl (by decide) (by decide) (by decide) (by decide) sampleExt
      (refreshZohoAccessToken sampleEnv.zoho sampleExt ZohoState.fresh).2 rfl).1
      (by decide)).1⟩

/-- C10 (counterexample): a first lead POST answered 401 with a body that is not JSON is
followed by no refresh and no retry. -/
theorem unauthorized_with_html_body_is_not_refreshed :
    htmlUnauthorizedExt.crm 0 = .resp 401 (.unparsable "Unexpected token < in JSON at position 0") ∧
    createZohoContact sampleEnv.zoho htmlUnauthorizedExt cachedZoho joBody.destructure.contact =
      (.failure "Unexpected token < in JSON at position 0",
       ⟨⟨some "old", some 5000000⟩, 1, 0, 0, [⟨"old", buildLead joBody.destructure.contact⟩]⟩) := by
  decide

/-- Witness of C10 (amended): a 401 with a JSON body, a refresh that grants `fresh`, and a
retry that creates the lead. -/
theorem unauthorized_gives_one_refresh_and_one_retry_witness :
    getZohoAccessToken sampleEnv.zoho unauthorizedOnceExt cachedZoho =
      (some "old", ⟨⟨some "old", some 5000000⟩, 1, 0, 0, []⟩) ∧
    (createZohoContact sampleEnv.zoho unauthorizedOnceExt cachedZoho
      joBody.destructure.contact).2.refreshCalls = 1 ∧
    (createZohoContact sampleEnv.zoho unauthorizedOnceExt cachedZoho
      joBody.destructure.contact).2.posts =
        [⟨"old", buildLead joBody.destructure.contact⟩,
         ⟨"fresh", buildLead joBody.destructure.contact⟩] ∧
    (createZohoContact sampleEnv.zoho unauthorizedOnceExt cachedZoho
      joBody.destructure.contact).1 = .success (some ⟨none, "created"⟩) :=
  have h := (unauthorized_gives_one_refresh_and_one_retry sampleEnv.zoho unauthorizedOnceExt
    cachedZoho joBody.destructure.contact "old" ⟨⟨some "old", some 5000000⟩, 1, 0, 0, []⟩
    (by decide) (by decide)).1 _ rfl
  ⟨by decide, h.1, (h.2.1 "fresh" (by decide) (by decide)).1,
   (h.2.1 "fresh" (by decide) (by decide)).2 201 _ rfl (by decide)⟩

theorem respondAccepted_eq (env : Env) (w : World) (z : ZohoState) (c : ContactData) :
    respondAccepted env w z c =
      ⟨201, corsHeaders, some
        ⟨true,
         if (emailRace w.mailBeatsTimer (promiseAll (sendMailWithRetry w.mailUser 3).settle
              (sendMailWithRetry w.mailFirm 3).settle)).1 = "sent" then
            "Contact submitted successfully and confirmation emails sent"
          else "Contact submitted successfully, but email delivery failed",
         none,
         some ⟨c.name, c.email, c.number, if truthy c.message then some c.message else none,
           w.isoNow⟩,
         some (emailRace w.mailBeatsTimer (promiseAll (sendMailWithRetry w.mailUser 3).settle
              (sendMailWithRetry w.mailFirm 3).settle)).1,
         some (zohoStatusAt w.crmSettle (createZohoContact env.zoho w.ext z c).1
            (respondedAt w)).1,
         match (zohoStatusAt w.crmSettle (createZohoContact env.zoho w.ext z c).1
            (respondedAt w)).2 with
         | some e =>
           if (zohoStatusAt w.crmSettle (createZohoContact env.zoho w.ext z c).1
              (respondedAt w)).1 = "failed" && truthy e then some e else none
         | none => none⟩⟩ := rfl

theorem handler_201 (env : Env) (w : World) (db : DbState) (z : ZohoState) (req : Request)
    (h : (handler env w db z req).response.status = 201) :
    ∃ body, req.body = some body ∧
      (handler env w db z req).response = respondAccepted env w z body.destructure.contact := by
  rcases handler_cases env w db z req with ⟨_, hr⟩ | ⟨_, _, hr⟩ | ⟨_, msg, db1, _, hr⟩ |
    ⟨_, c, db1, _, ⟨_, msg, hr⟩ | ⟨body, hb, ⟨e, _, hr⟩ | ⟨_, ⟨_, hr⟩ | ⟨msg, _, hr⟩ |
      ⟨hs, _, _, hr⟩⟩⟩⟩
  all_goals rw [hr] at h ⊢
  all_goals try (simp [internalError, failureJson] at h; done)
  exact ⟨body, hb, rfl⟩

theorem emailRace_status (mailFirst : Bool) (all : Settle) :
    ((emailRace mailFirst all).1 = "sent" ∨ (emailRace mailFirst all).1 = "failed") ∧
    ((emailRace mailFirst all).1 = "sent" ↔
      ∃ t, all = .resolved t ∧ (t < 8000 ∨ (t = 8000 ∧ mailFirst = true))) ∧
    (emailRace mailFirst all).2 ≤ 8000 := by
  cases all with
  | resolved t =>
    simp only [emailRace]
    by_cases h : t < 8000
    · simp [h]; omega
    · by_cases h2 : (t = 8000 && mailFirst) = true
      · simp only [h, if_false, h2, if_true]
        simp only [Bool.and_eq_true, decide_eq_true_eq] at h2
        simp [h2]
      · simp only [h, if_false, h2]
        simp only [Bool.and_eq_true, decide_eq_true_eq] at h2
        simp [h, h2]
  | rejected t m =>
    simp only [emailRace]
    split_ifs with h
    · simp; omega
    · simp
  | never => simp [emailRace]

theorem promiseAll_resolved (a b : Settle) (t : Nat) :
    promiseAll a b = .resolved t ↔
      ∃ ta tb, a = .resolved ta ∧ b = .resolved tb ∧ t = max ta tb := by
  cases a <;> cases b <;> simp [promiseAll]
  · exact eq_comm
  · split_ifs <;> simp

theorem zohoStatusAt_values (crmSettle : Option Nat) (crm : ZohoResult) (now : Nat) :
    (zohoStatusAt crmSettle crm now).1 = "success" ∨
    (zohoStatusAt crmSettle crm now).1 = "failed" ∨
    (zohoStatusAt crmSettle crm now).1 = "timeout" ∨
    (zohoStatusAt crmSettle crm now).1 = "pending" := by
  unfold zohoStatusAt
  cases crmSettle with
  | none => simp only []; split_ifs <;> simp
  | some tc =>
    simp only []
    split_ifs
    · cases crm <;> simp
    · simp
    · simp

/-- C11: in every 201 response `emailStatus` is `sent` or `failed`, never `pending`, and
`zohoCrmStatus` is one of `success`, `failed`, `timeout`, `pending`. `emailStatus` is `sent`
when both `sendMailWithRetry` promises resolve before the 8000 ms deadline, and `failed` when
one of them rejects, never settles or settles after the deadline. When the later of the two
resolves at the instant 8000 itself, the status is `sent` exactly when the event loop handles
that completion before the timer. -/
theorem statuses_of_accepted_response (env : Env) (w : World) (db : DbState) (z : ZohoState)
    (req : Request) (h : (handler env w db z req).response.status = 201) :
    ∃ j es zs, (handler env w db z req).response.body = some j ∧
      j.emailStatus = some es ∧ j.zohoCrmStatus = some zs ∧
      (es = "sent" ∨ es = "failed") ∧ es ≠ "pending" ∧
      (zs = "success" ∨ zs = "failed" ∨ zs = "timeout" ∨ zs = "pending") ∧
      ((∃ ta tb, (sendMailWithRetry w.mailUser 3).settle = .resolved ta ∧
          (sendMailWithRetry w.mailFirm 3).settle = .resolved tb ∧ ta < 8000 ∧ tb < 8000) →
        es = "sent") ∧
      (es = "sent" →
        ∃ ta tb, (sendMailWithRetry w.mailUser 3).settle = .resolved ta ∧
          (sendMailWithRetry w.mailFirm 3).settle = .resolved tb ∧ ta ≤ 8000 ∧ tb ≤ 8000) ∧
      ((¬ ∃ ta tb, (sendMailWithRetry w.mailUser 3).settle = .resolved ta ∧
          (sendMailWithRetry w.mailFirm 3).settle = .resolved tb ∧ ta ≤ 8000 ∧ tb ≤ 8000) →
        es = "failed") ∧
      (es = "sent" ↔
        ∃ ta tb, (sendMailWithRetry w.mailUser 3).settle = .resolved ta ∧
          (sendMailWithRetry w.mailFirm 3).settle = .resolved tb ∧
          (max ta tb < 8000 ∨ (max ta tb = 8000 ∧ w.mailBeatsTimer = true))) := by
  obtain ⟨body, -, hr⟩ := handler_201 env w db z req h
  rw [hr, respondAccepted_eq]
  obtain ⟨h1, h2, -⟩ := emailRace_status w.mailBeatsTimer
    (promiseAll (sendMailWithRetry w.mailUser 3).settle (sendMailWithRetry w.mailFirm 3).settle)
  have hiff : (emailRace w.mailBeatsTimer (promiseAll (sendMailWithRetry w.mailUser 3).settle
        (sendMailWithRetry w.mailFirm 3).settle)).1 = "sent" ↔
      ∃ ta tb, (sendMailWithRetry w.mailUser 3).settle = .resolved ta ∧
          (sendMailWithRetry w.mailFirm 3).settle = .resolved tb ∧
          (max ta tb < 8000 ∨ (max ta tb = 8000 ∧ w.mailBeatsTimer = true)) := by
    rw [h2]
    constructor
    · rintro ⟨t, ht, hlt⟩
      obtain ⟨ta, tb, ha, hb, rfl⟩ := (promiseAll_resolved _ _ _).1 ht
      exact ⟨ta, tb, ha, hb, hlt⟩
    · rintro ⟨ta, tb, ha, hb, h3⟩
      exact ⟨max ta tb, (promiseAll_resolved _ _ _).2 ⟨ta, tb, ha, hb, rfl⟩, h3⟩
  have hne : ("sent" : String) ≠ "failed" := by decide
  refine ⟨_, _, _, rfl, rfl, rfl, h1, ?_, zohoStatusAt_values _ _ _, ?_, ?_, ?_, hiff⟩
  · rcases h1 with h1 | h1 <;> rw [h1] <;> decide
  · rintro ⟨ta, tb, ha, hb, h3, h4⟩
    exact hiff.2 ⟨ta, tb, ha, hb, Or.inl (by omega)⟩
  · intro hs
    obtain ⟨ta, tb, ha, hb, h3⟩ := hiff.1 hs
    exact ⟨ta, tb, ha, hb, by omega, by omega⟩
  · intro hno
    rcases h1 with h1 | h1
    · obtain ⟨ta, tb, ha, hb, h3⟩ := hiff.1 h1
      exact absurd ⟨ta, tb, ha, hb, by omega, by omega⟩ hno
    · exact h1

/-- C12 (counterexample): the CRM call settles at 6000 ms, after the 5000 ms timer, and the
response is built at 7000 ms: it carries the CRM result `success`, not `timeout`. -/
theorem late_crm_result_overwrites_timeout :
    slowMailWorld.crmSettle = some 6000 ∧ respondedAt slowMailWorld = 7000 ∧
    (handler sampleEnv slowMailWorld DbState.fresh ZohoState.fresh
      ⟨"POST", some joBody⟩).response.status = 201 ∧
    (handler sampleEnv slowMailWorld DbState.fresh ZohoState.fresh
      ⟨"POST", some joBody⟩).response.body.bind Json.zohoCrmStatus = some "success" := by
  decide

/-- C12 (amended): in an accepted request, when the 5000 ms timer has fired and the CRM call
has not settled by the instant the response is built, `zohoCrmStatus` is `timeout` and no
CRM result or error is in the response; when the CRM call settles before the response is
built, also after the timer, its result is what the response carries. -/
theorem crm_timeout_only_while_unsettled (env : Env) (w : World) (db : DbState)
    (z : ZohoState) (req : Request) (h : (handler env w db z req).response.status = 201) :
    ∃ j body, (handler env w db z req).response.body = some j ∧ req.body = some body ∧
      (5000 ≤ respondedAt w →
        (w.crmSettle = none ∨ ∃ tc, w.crmSettle = some tc ∧ respondedAt w ≤ tc) →
        j.zohoCrmStatus = some "timeout" ∧ j.zohoCrmError = none) ∧
      (∀ tc, w.crmSettle = some tc → tc < respondedAt w →
        (∀ d, (createZohoContact env.zoho w.ext z body.destructure.contact).1 = .success d →
          j.zohoCrmStatus = some "success") ∧
        (∀ e, (createZohoContact env.zoho w.ext z body.destructure.contact).1 = .failure e →
          j.zohoCrmStatus = some "failed" ∧
          j.zohoCrmError = if truthy e then some e else none)) := by
  obtain ⟨body, hb, hr⟩ := handler_201 env w db z req h
  rw [hr, respondAccepted_eq]
  refine ⟨_, body, rfl, hb, ?_, ?_⟩
  · intro h5 hun
    have hz : zohoStatusAt w.crmSettle
        (createZohoContact env.zoho w.ext z body.destructure.contact).1 (respondedAt w)
        = ("timeout", none) := by
      unfold zohoStatusAt
      rcases hun with hn | ⟨tc, htc, hle⟩
      · simp [hn, h5]
      · simp [htc, h5, not_lt.mpr hle]
    simp [hz]
  · intro tc htc hlt
    refine ⟨fun d hd => ?_, fun e he => ?_⟩
    · simp [zohoStatusAt, htc, hlt, hd]
    · simp [zohoStatusAt, htc, hlt, he]

/-- Witness of C12 (amended): the CRM call never settles and the mails take 7 s. -/
theorem crm_timeout_only_while_unsettled_witness :
    (handler sampleEnv hangingCrmWorld DbState.fresh ZohoState.fresh
      ⟨"POST", some joBody⟩).response.status = 201 ∧
    (handler sampleEnv hangingCrmWorld DbState.fresh ZohoState.fresh
      ⟨"POST", some joBody⟩).response.body.bind Json.zohoCrmStatus = some "timeout" :=
  ⟨by decide, by
    obtain ⟨j, body, hj, -, h1, -⟩ := crm_timeout_only_while_unsettled sampleEnv hangingCrmWorld
      DbState.fresh ZohoState.fresh ⟨"POST", some joBody⟩ (by decide)
    rw [hj]
    exact (h1 (by decide) (Or.inl rfl)).1⟩

/-- C18: an OPTIONS request gets 200 with an empty body, every method other than OPTIONS and
POST gets 405 with `isSuccess = false`, in both cases without connecting, validating,
saving, calling the CRM or sending mail; every response carries the three CORS headers. -/
theorem only_post_and_options_are_accepted (env : Env) (w : World) (db : DbState)
    (z : ZohoState) (req : Request) :
    (req.method = "OPTIONS" →
      handler env w db z req = ⟨⟨200, corsHeaders, none⟩, [.responded 200], db⟩) ∧
    (req.method ≠ "OPTIONS" → req.method ≠ "POST" →
      handler env w db z req =
        ⟨⟨405, corsHeaders, some ⟨false, "Method not allowed", none, none, none, none, none⟩⟩,
          [.responded 405], db⟩) ∧
    (handler env w db z req).response.headers = corsHeaders ∧
    corsHeaders.length = 3 := by
  rcases handler_cases env w db z req with ⟨hm, hr⟩ | ⟨hm1, hm2, hr⟩ | ⟨hm, msg, db1, _, hr⟩ |
    ⟨hm, c, db1, _, ⟨_, msg, hr⟩ | ⟨body, hb, ⟨e, _, hr⟩ | ⟨_, ⟨_, hr⟩ | ⟨msg, _, hr⟩ |
      ⟨hs, _, _, hr⟩⟩⟩⟩
  all_goals rw [hr]
  all_goals refine ⟨?_, ?_, ?_, rfl⟩
  all_goals first
    | rfl
    | (intro h1; first | exact absurd h1 hm1 | (rw [hm] at h1; exact absurd h1 (by decide)) | rfl)
    | (intro h1 h2; first | rfl | exact absurd hm h2)

theorem dbConnectLoop_counts (connect : Nat → ConnectOutcome) (retries delay : Nat)
    (fuel attempt : Nat) (s : DbState) :
    (dbConnectLoop connect retries delay fuel attempt s).2.connects ≤ s.connects + 1 ∧
    (s.promise ≠ none →
      (dbConnectLoop connect retries delay fuel attempt s).2.connects = s.connects) ∧
    (dbConnectLoop connect retries delay fuel attempt s).2.waits.length
      ≤ s.waits.length + (retries - attempt) := by
  induction fuel generalizing attempt s with
  | zero => simp [dbConnectLoop]
  | succ fuel ih =>
    rcases s with ⟨conn, promise, connects, waits⟩
    unfold dbConnectLoop
    by_cases ha : attempt ≤ retries
    swap
    · simp [ha]
    simp only [ha, if_true]
    cases promise with
    | none =>
      simp only []
      cases hc : connect connects with
      | resolved c => simp
      | rejected e =>
        simp only []
        split_ifs with hr
        · simp
        · obtain ⟨-, h2, h3⟩ := ih (attempt + 1)
            ⟨conn, some (ConnectOutcome.rejected e), connects + 1, waits ++ [delay * attempt]⟩
          have h2 := h2 (by simp)
          simp only [List.length_append, List.length_singleton] at h2 h3
          refine ⟨by omega, by simp, by omega⟩
    | some o =>
      cases o with
      | resolved c => simp
      | rejected e =>
        simp only []
        split_ifs with hr
        · simp
        · obtain ⟨-, h2, h3⟩ := ih (attempt + 1)
            ⟨conn, some (ConnectOutcome.rejected e), connects, waits ++ [delay * attempt]⟩
          have h2 := h2 (by simp)
          simp only [List.length_append, List.length_singleton] at h2 h3
          refine ⟨by omega, fun _ => h2, by omega⟩

theorem sendMailLoop_attempts (send : Nat → SendOutcome) (retries fuel attempt t : Nat)
    (ws : List Nat) :
    (sendMailLoop send retries fuel attempt t ws).attempts ≤ max (attempt - 1) retries := by
  induction fuel generalizing attempt t ws with
  | zero => simp [sendMailLoop]
  | succ fuel ih =>
    unfold sendMailLoop
    by_cases ha : attempt ≤ retries
    swap
    · simp [ha]
    simp only [ha, if_true]
    cases send attempt with
    | sent l id => simp only []; omega
    | hang => simp only []; omega
    | failed l m =>
      simp only []
      split_ifs with hr
      · simp only []; omega
      · have := ih (attempt + 1) (t + l + 1000 * attempt) (ws ++ [1000 * attempt])
        omega

theorem getZohoAccessToken_posts (env : ZohoEnv) (ext : Ext) (s : ZohoState) :
    (getZohoAccessToken env ext s).2.posts = s.posts := by
  unfold getZohoAccessToken
  split
  · split_ifs
    · rfl
    · exact (refresh_posts env ext _).1
    · exact (refresh_posts env ext _).1
  · exact (refresh_posts env ext _).1

theorem createZohoContact_posts (env : ZohoEnv) (ext : Ext) (s : ZohoState) (c : ContactData) :
    (createZohoContact env ext s c).2.posts.length ≤ s.posts.length + 2 := by
  have hg := getZohoAccessToken_posts env ext s
  unfold createZohoContact
  rcases hget : getZohoAccessToken env ext s with ⟨tok, s1⟩
  rw [hget] at hg
  simp only [] at hg
  simp only [postLead]
  cases tok with
  | none => simp [hg]
  | some t =>
    simp only []
    split_ifs
    · simp [hg]
    · have hp := (refresh_posts env ext { s1 with posts := s1.posts ++ [⟨t, buildLead c⟩] }).1
      rcases hr : refreshZohoAccessToken env ext
          { s1 with posts := s1.posts ++ [⟨t, buildLead c⟩] } with ⟨nt, s3⟩
      rw [hr] at hp
      simp only [] at hp
      rcases ext.crm s1.posts.length with m | ⟨st, m | j⟩
      · simp [hg]
      · simp [hg]
      · simp only []
        split_ifs
        · cases nt with
          | none => simp [hp, hg]
          | some nt =>
            simp only []
            split_ifs
            · simp [hp, hg]
            · rcases ext.crm s3.posts.length with m2 | ⟨st2, m2 | j2⟩
              · simp [hp, hg]
              · simp [hp, hg]
              · simp only []; split_ifs <;> simp [hp, hg]
        · simp [hg]
        · simp [hg]

/-- C13: whatever the outside does, one `dbConnect()` call invokes `mongoose.connect` at most
3 times (and waits at most 2 backoffs, so its loop runs at most 3 times), one
`sendMailWithRetry` call with the default retries makes at most 3 `sendMail` calls, and one
`createZohoContact` call makes at most 2 lead POSTs. -/
theorem retry_bounds (connect : Nat → ConnectOutcome) (s : DbState) (send : Nat → SendOutcome)
    (env : ZohoEnv) (ext : Ext) (zs : ZohoState) (c : ContactData) :
    (dbConnect connect 3 1000 s).2.connects ≤ s.connects + 3 ∧
    (dbConnect connect 3 1000 s).2.waits.length ≤ s.waits.length + 2 ∧
    (sendMailWithRetry send 3).attempts ≤ 3 ∧
    (createZohoContact env ext zs c).2.posts.length ≤ zs.posts.length + 2 := by
  refine ⟨?_, ?_, ?_, createZohoContact_posts env ext zs c⟩
  · unfold dbConnect
    cases s.conn with
    | some c => simp
    | none =>
      have := (dbConnectLoop_counts connect 3 1000 3 1 s).1
      simp only []
      omega
  · unfold dbConnect
    cases s.conn with
    | some c => simp
    | none =>
      have := (dbConnectLoop_counts connect 3 1000 3 1 s).2.2
      simp only []
      omega
  · have := sendMailLoop_attempts send 3 3 1 0 []
    simpa [sendMailWithRetry] using this

theorem createZohoContact_no_token (env : ZohoEnv) (ext : Ext) (s : ZohoState) (c : ContactData)
    (h : (getZohoAccessToken env ext s).1 = none) :
    createZohoContact env ext s c =
      (.failure "No access token", (getZohoAccessToken env ext s).2) := by
  unfold createZohoContact
  rcases hget : getZohoAccessToken env ext s with ⟨tok, s1⟩
  rw [hget] at h
  simp only [] at h
  subst h
  rfl

/-- C14: `refreshZohoAccessToken` always returns (its model is a total function) and gives
`null` without calling the token endpoint when a credential is missing, and `null` when the
endpoint answers non-OK, answers with an error field, or the call throws; when the token
acquisition of `createZohoContact` gets `null` this way, the result is the failure
`No access token` and no lead POST is made. -/
theorem refresh_failure_gives_no_token (env : ZohoEnv) (ext : Ext) (s : ZohoState)
    (c : ContactData) :
    ((truthy env.clientId = false ∨ truthy env.clientSecret = false ∨
        truthy env.refreshToken = false) →
      (refreshZohoAccessToken env ext s).1 = none ∧
      (refreshZohoAccessToken env ext s).2.authCalls = s.authCalls) ∧
    ((∃ m, ext.auth s.authCalls = .threw m) ∨
      (∃ ok err tok l, ext.auth s.authCalls = .json ok err tok l ∧ (ok = false ∨ err = true)) →
      (refreshZohoAccessToken env ext s).1 = none) ∧
    ((getZohoAccessToken env ext s).1 = none →
      createZohoContact env ext s c =
        (.failure "No access token", (getZohoAccessToken env ext s).2) ∧
      (createZohoContact env ext s c).2.posts = s.posts) ∧
    (s.cache.token = none → (refreshZohoAccessToken env ext s).1 = none →
      createZohoContact env ext s c =
        (.failure "No access token", (refreshZohoAccessToken env ext s).2) ∧
      (createZohoContact env ext s c).2.posts = s.posts) := by
  refine ⟨?_, ?_, ?_, ?_⟩
  · intro h
    have : (!truthy env.clientId || !truthy env.clientSecret || !truthy env.refreshToken)
        = true := by
      rcases h with h | h | h <;> simp [h]
    simp [refreshZohoAccessToken, this]
  · intro h
    unfold refreshZohoAccessToken
    simp only []
    split_ifs
    · rfl
    · rcases h with ⟨m, hm⟩ | ⟨ok, err, tok, l, hj, hbad⟩
      · simp [hm]
      · rcases hbad with hb | hb <;> simp [hj, hb]
  · intro h
    have h1 := createZohoContact_no_token env ext s c h
    refine ⟨h1, ?_⟩
    rw [h1]
    exact getZohoAccessToken_posts env ext s
  · intro hc h
    have hg : getZohoAccessToken env ext s = refreshZohoAccessToken env ext s := by
      unfold getZohoAccessToken
      rw [hc]
    have h1 := createZohoContact_no_token env ext s c (by rw [hg]; exact h)
    rw [hg] at h1
    refine ⟨h1, ?_⟩
    rw [h1]
    exact (refresh_posts env ext s).1

/-- Witness of C14: without credentials a fresh process gets no token and posts no lead. -/
theorem refresh_failure_gives_no_token_witness :
    refreshZohoAccessToken ⟨"", "key", "refresh"⟩ sampleExt ZohoState.fresh
      = (none, ⟨⟨none, none⟩, 0, 1, 0, []⟩) ∧
    createZohoContact ⟨"", "key", "refresh"⟩ sampleExt ZohoState.fresh joBody.destructure.contact
      = (.failure "No access token", ⟨⟨none, none⟩, 0, 1, 0, []⟩) :=
  ⟨by decide,
   ((refresh_failure_gives_no_token ⟨"", "key", "refresh"⟩ sampleExt ZohoState.fresh
      joBody.destructure.contact).2.2.2 rfl (by decide)).1⟩

/-- C17: once `dbConnect` has returned a connection, every later call returns the same
connection and leaves the state, so the count of `mongoose.connect` calls, untouched; no
call invokes `mongoose.connect` while a connection promise is cached, and a caller that
finds the promise of an attempt in flight gets the connection that attempt resolves to. -/
theorem connection_is_memoized (connect : Nat → ConnectOutcome) (retries delay : Nat)
    (s s1 : DbState) (c : Conn)
    (h : dbConnect connect retries delay s = (.returned (some c), s1)) :
    s1.conn = some c ∧
    (∀ connect2 retries2 delay2,
      dbConnect connect2 retries2 delay2 s1 = (.returned (some c), s1)) ∧
    (∀ (connect3 : Nat → ConnectOutcome) (retries3 delay3 : Nat) (s3 : DbState),
      s3.promise ≠ none →
      (dbConnect connect3 retries3 delay3 s3).2.connects = s3.connects) ∧
    (∀ (connect3 : Nat → ConnectOutcome) (retries3 delay3 : Nat) (s3 : DbState),
      (dbConnect connect3 retries3 delay3 s3).2.connects ≤ s3.connects + 1) ∧
    (∀ (connect3 : Nat → ConnectOutcome) (retries3 delay3 : Nat) (s3 : DbState) (c3 : Conn),
      s3.conn = none → s3.promise = some (.resolved c3) → 1 ≤ retries3 →
      dbConnect connect3 retries3 delay3 s3 =
        (.returned (some c3), { s3 with conn := some c3 })) := by
  have hconn : s1.conn = some c := by
    unfold dbConnect at h
    cases hs : s.conn with
    | some c0 =>
      simp only [hs, Prod.mk.injEq, DbResult.returned.injEq, Option.some.injEq] at h
      obtain ⟨rfl, rfl⟩ := h
      exact hs
    | none =>
      simp only [hs] at h
      have key : ∀ (fuel attempt : Nat) (t : DbState),
          dbConnectLoop connect retries delay fuel attempt t = (.returned (some c), s1) →
          s1.conn = some c := by
        intro fuel
        induction fuel with
        | zero => intro attempt t ht; simp [dbConnectLoop] at ht
        | succ fuel ih =>
          intro attempt t ht
          rcases t with ⟨conn, promise, connects, waits⟩
          unfold dbConnectLoop at ht
          by_cases ha : attempt ≤ retries
          swap
          · simp [ha] at ht
          simp only [ha, if_true] at ht
          cases promise with
          | none =>
            simp only [] at ht
            cases hc : connect connects with
            | resolved c1 =>
              simp only [hc, Prod.mk.injEq, DbResult.returned.injEq, Option.some.injEq] at ht
              obtain ⟨rfl, rfl⟩ := ht
              rfl
            | rejected e =>
              simp only [hc] at ht
              split_ifs at ht with hr
              · simp at ht
              · exact ih _ _ ht
          | some o =>
            cases o with
            | resolved c1 =>
              simp only [Prod.mk.injEq, DbResult.returned.injEq, Option.some.injEq] at ht
              obtain ⟨rfl, rfl⟩ := ht
              rfl
            | rejected e =>
              simp only [] at ht
              split_ifs at ht with hr
              · simp at ht
              · exact ih _ _ ht
      exact key _ _ _ h
  refine ⟨hconn, ?_, ?_, ?_, ?_⟩
  · intro connect2 retries2 delay2
    simp [dbConnect, hconn]
  · intro connect3 retries3 delay3 s3 hp
    unfold dbConnect
    cases s3.conn with
    | some c0 => rfl
    | none => exact (dbConnectLoop_counts connect3 retries3 delay3 retries3 1 s3).2.1 hp
  · intro connect3 retries3 delay3 s3
    unfold dbConnect
    cases s3.conn with
    | some c0 => simp
    | none => exact (dbConnectLoop_counts connect3 retries3 delay3 retries3 1 s3).1
  · intro connect3 retries3 delay3 s3 c3 hc hp hr
    unfold dbConnect
    rw [hc]
    simp only []
    obtain ⟨n, rfl⟩ : ∃ n, retries3 = n + 1 := ⟨retries3 - 1, by omega⟩
    unfold dbConnectLoop
    simp [hp]

/-- Witness of C17: the second call of a process returns the connection of the first. -/
theorem connection_is_memoized_witness :
    dbConnect (fun _ => .resolved 1) 3 1000 DbState.fresh =
      (.returned (some 1), ⟨some 1, some (.resolved 1), 1, []⟩) ∧
    dbConnect flakyConnect 3 1000 ⟨some 1, some (.resolved 1), 1, []⟩ =
      (.returned (some 1), ⟨some 1, some (.resolved 1), 1, []⟩) :=
  ⟨by decide,
   (connection_is_memoized (fun _ => .resolved 1) 3 1000 DbState.fresh
      ⟨some 1, some (.resolved 1), 1, []⟩ 1 (by decide)).2.1 flakyConnect 3 1000⟩

theorem leadFailure_some (j : CrmJson) :
    leadFailure (some j) =
      .failure (match j.message with
        | some m => if truthy m then m else "Unknown error"
        | none => "Unknown error") := by
  unfold leadFailure
  rcases j with ⟨_ | m, p⟩
  · rfl
  · simp only []; split_ifs <;> rfl

/-- C15: `createZohoContact` always returns a success or a failure object (its model is a
total function). After a first lead response that is not OK and is not recovered by the 401
retry, the error is the `message` of that response body, or `Unknown error` when the body
has no message; when the `fetch`, `response.json()` or the reading of a `null` body throws,
on the first POST or on the retry, the error is the message of that exception. -/
theorem createZohoContact_outcomes (env : ZohoEnv) (ext : Ext) (s : ZohoState)
    (c : ContactData) :
    ((∃ d, (createZohoContact env ext s c).1 = .success d) ∨
      ∃ e, (createZohoContact env ext s c).1 = .failure e) ∧
    ∀ tok s1, getZohoAccessToken env ext s = (some tok, s1) → truthy tok = true →
      (∀ m, ext.crm s1.posts.length = .threw m →
        (createZohoContact env ext s c).1 = .failure m) ∧
      (∀ st m, ext.crm s1.posts.length = .resp st (.unparsable m) →
        (createZohoContact env ext s c).1 = .failure m) ∧
      (∀ st result, ext.crm s1.posts.length = .resp st (.json result) → isOk st = false →
        (st ≠ 401 ∨
          (∀ nt, (refreshZohoAccessToken env ext
              { s1 with posts := s1.posts ++ [⟨tok, buildLead c⟩] }).1 = some nt →
            truthy nt = false) ∨
          (∃ st2 r2, ext.crm (s1.posts.length + 1) = .resp st2 (.json r2) ∧
            isOk st2 = false)) →
        (∀ j, result = some j → (createZohoContact env ext s c).1 =
          .failure (match j.message with
            | some m => if truthy m then m else "Unknown error"
            | none => "Unknown error")) ∧
        (result = none → (createZohoContact env ext s c).1 =
          .failure "Cannot read properties of null (reading 'message')")) ∧
      (∀ result nt, ext.crm s1.posts.length = .resp 401 (.json result) →
        (refreshZohoAccessToken env ext
          { s1 with posts := s1.posts ++ [⟨tok, buildLead c⟩] }).1 = some nt →
        truthy nt = true →
        (∀ m, ext.crm (s1.posts.length + 1) = .threw m →
          (createZohoContact env ext s c).1 = .failure m) ∧
        (∀ st2 m, ext.crm (s1.posts.length + 1) = .resp st2 (.unparsable m) →
          (createZohoContact env ext s c).1 = .failure m)) := by
  refine ⟨?_, ?_⟩
  · cases (createZohoContact env ext s c).1 with
    | success d => exact Or.inl ⟨d, rfl⟩
    | failure e => exact Or.inr ⟨e, rfl⟩
  intro tok s1 hget htok
  have h401ok : isOk 401 = false := by decide
  obtain ⟨hp, -⟩ := refresh_posts env ext { s1 with posts := s1.posts ++ [⟨tok, buildLead c⟩] }
  rcases hr : refreshZohoAccessToken env ext
      { s1 with posts := s1.posts ++ [⟨tok, buildLead c⟩] } with ⟨newToken, s3⟩
  rw [hr] at hp
  simp only [] at hp
  have hlen : s3.posts.length = s1.posts.length + 1 := by rw [hp]; simp
  have hfail : ∀ result : Option CrmJson,
      (∀ j, result = some j → leadFailure result =
          .failure (match j.message with
            | some m => if truthy m then m else "Unknown error"
            | none => "Unknown error")) ∧
      (result = none → leadFailure result =
          .failure "Cannot read properties of null (reading 'message')") := by
    intro result
    refine ⟨fun j hj => by rw [hj]; exact leadFailure_some j, fun hn => by rw [hn]; rfl⟩
  refine ⟨?_, ?_, ?_, ?_⟩
  · intro m hm
    unfold createZohoContact
    simp [hget, htok, postLead, hm]
  · intro st m hm
    unfold createZohoContact
    simp [hget, htok, postLead, hm]
  · intro st result hresp hnok hcase
    have hres : (createZohoContact env ext s c).1 = leadFailure result := by
      unfold createZohoContact
      simp only [hget, htok, postLead, hresp, hnok, hr, Bool.not_true, Bool.false_eq_true,
        if_false, Bool.not_false, if_true]
      by_cases h4 : st = 401
      swap
      · simp [h4]
      simp only [h4, if_true]
      rcases hcase with hne | hnt | ⟨st2, r2, hretry, hnok2⟩
      · exact absurd h4 hne
      · cases newToken with
        | none => rfl
        | some nt =>
          have := hnt nt rfl
          simp [this]
      · cases newToken with
        | none => rfl
        | some nt =>
          simp only []
          split_ifs
          · rfl
          · simp [hlen, hretry, hnok2]
    rw [hres]
    exact hfail result
  · intro result nt hresp hnt htr
    simp only [] at hnt
    subst hnt
    refine ⟨fun m hm => ?_, fun st2 m hm => ?_⟩
    · unfold createZohoContact
      simp [hget, htok, postLead, hresp, h401ok, hr, htr, hlen, hm]
    · unfold createZohoContact
      simp [hget, htok, postLead, hresp, h401ok, hr, htr, hlen, hm]

/-- Witness of C15: a 500 response with a provider message gives a failure with it. -/
theorem createZohoContact_outcomes_witness :
    (createZohoContact sampleEnv.zoho brokenCrmExt cachedZoho joBody.destructure.contact).1
      = .failure "internal error" :=
  ((createZohoContact_outcomes sampleEnv.zoho brokenCrmExt cachedZoho
      joBody.destructure.contact).2 "old" ⟨⟨some "old", some 5000000⟩, 1, 0, 0, []⟩
      (by decide) (by decide)).2.2.1 500 (some ⟨some "internal error", ""⟩) rfl (by decide)
      (Or.inl (by decide)) |>.1 _ rfl

theorem dbConnectLoop_rejected (connect : Nat → ConnectOutcome) (retries delay : Nat)
    (e : String) (fuel attempt : Nat) (s : DbState)
    (hp : s.promise = some (.rejected e)) (ha : attempt ≤ retries)
    (hf : fuel = retries + 1 - attempt) :
    dbConnectLoop connect retries delay fuel attempt s =
      (.threw ("MongoDB connection failed after " ++ toString retries ++ " attempts: " ++ e),
       { s with waits := s.waits ++
          (List.range' attempt (retries - attempt)).map (fun k => delay * k) }) := by
  induction fuel generalizing attempt s with
  | zero => omega
  | succ fuel ih =>
    rcases s with ⟨conn, promise, connects, waits⟩
    simp only [] at hp
    subst hp
    unfold dbConnectLoop
    simp only [ha, if_true]
    by_cases hr : attempt = retries
    · subst hr
      simp
    · simp only [hr, if_false]
      rw [ih (attempt + 1) _ rfl (by omega) (by omega)]
      have : retries - attempt = (retries - (attempt + 1)) + 1 := by omega
      rw [this, List.range'_succ]
      simp

theorem dbConnectLoop_first (connect : Nat → ConnectOutcome) (retries delay : Nat)
    (fuel attempt : Nat) (s : DbState) (hp : s.promise = none) (ha : attempt ≤ retries) :
    dbConnectLoop connect retries delay (fuel + 1) attempt s =
      dbConnectLoop connect retries delay (fuel + 1) attempt
        { s with promise := some (connect s.connects), connects := s.connects + 1 } := by
  rcases s with ⟨conn, promise, connects, waits⟩
  simp only [] at hp
  subst hp
  conv_lhs => unfold dbConnectLoop
  conv_rhs => unfold dbConnectLoop
  simp only [ha, if_true]

theorem sendMailLoop_spec (send : Nat → SendOutcome) (retries : Nat) (fuel a t : Nat)
    (ws : List Nat) (ha : a ≤ retries) (hf : fuel = retries + 1 - a) :
    (∀ k, a ≤ k → k ≤ retries →
      (∀ j, a ≤ j → j < k → ∃ l m, send j = .failed l m) →
      (∀ l id, send k = .sent l id →
        (sendMailLoop send retries fuel a t ws).result = some id ∧
        (∃ t2, (sendMailLoop send retries fuel a t ws).settle = .resolved t2) ∧
        (sendMailLoop send retries fuel a t ws).attempts = k ∧
        (sendMailLoop send retries fuel a t ws).waits =
          ws ++ (List.range' a (k - a)).map (fun i => 1000 * i)) ∧
      (k = retries → ∀ l m, send k = .failed l m →
        (∃ t2, (sendMailLoop send retries fuel a t ws).settle = .rejected t2
          ("Email sending failed after " ++ toString retries ++ " attempts: " ++ m)) ∧
        (sendMailLoop send retries fuel a t ws).attempts = retries ∧
        (sendMailLoop send retries fuel a t ws).waits =
          ws ++ (List.range' a (retries - a)).map (fun i => 1000 * i))) ∧
    ((∃ t2 msg, (sendMailLoop send retries fuel a t ws).settle = .rejected t2 msg) →
      ∀ j, a ≤ j → j ≤ retries → ∃ l m, send j = .failed l m) := by
  induction fuel generalizing a t ws with
  | zero => omega
  | succ fuel ih =>
    unfold sendMailLoop
    simp only [ha, if_true]
    cases hs : send a with
    | sent l0 id0 =>
      simp only []
      refine ⟨fun k hak hkr hfail => ?_, fun h => by simp at h⟩
      rcases Nat.eq_or_lt_of_le hak with rfl | hlt
      · refine ⟨fun l id hk => ?_, fun _ l m hk => ?_⟩
        · rw [hs] at hk
          simp only [SendOutcome.sent.injEq] at hk
          obtain ⟨rfl, rfl⟩ := hk
          simp
        · rw [hs] at hk; cases hk
      · obtain ⟨l, m, hm⟩ := hfail a le_rfl hlt
        rw [hs] at hm; cases hm
    | hang =>
      simp only []
      refine ⟨fun k hak hkr hfail => ?_, fun h => by simp at h⟩
      rcases Nat.eq_or_lt_of_le hak with rfl | hlt
      · refine ⟨fun l id hk => ?_, fun _ l m hk => ?_⟩
        · rw [hs] at hk; cases hk
        · rw [hs] at hk; cases hk
      · obtain ⟨l, m, hm⟩ := hfail a le_rfl hlt
        rw [hs] at hm; cases hm
    | failed l0 m0 =>
      simp only []
      by_cases hr : a = retries
      · subst hr
        simp only [if_true]
        refine ⟨fun k hak hkr hfail => ?_, fun _ j haj hjr => ?_⟩
        · have hk : k = a := le_antisymm hkr hak
          subst hk
          refine ⟨fun l id hk => ?_, fun _ l m hk => ?_⟩
          · rw [hs] at hk; cases hk
          · rw [hs] at hk
            simp only [SendOutcome.failed.injEq] at hk
            obtain ⟨rfl, rfl⟩ := hk
            simp
        · have hj : j = a := le_antisymm hjr haj
          subst hj
          exact ⟨l0, m0, hs⟩
      · simp only [hr, if_false]
        obtain ⟨ih1, ih2⟩ := ih (a + 1) (t + l0 + 1000 * a) (ws ++ [1000 * a]) (by omega)
          (by omega)
        refine ⟨fun k hak hkr hfail => ?_, fun h j haj hjr => ?_⟩
        · rcases Nat.eq_or_lt_of_le hak with rfl | hlt
          · refine ⟨fun l id hk => ?_, fun hkr2 l m hk => absurd hkr2 hr⟩
            rw [hs] at hk; cases hk
          · obtain ⟨h1, h2⟩ := ih1 k hlt hkr (fun j hj1 hj2 => hfail j (by omega) hj2)
            have e1 : k - a = (k - (a + 1)) + 1 := by omega
            have e2 : retries - a = (retries - (a + 1)) + 1 := by omega
            refine ⟨fun l id hk => ?_, fun hkr2 l m hk => ?_⟩
            · obtain ⟨r1, r2, r3, r4⟩ := h1 l id hk
              refine ⟨r1, r2, r3, ?_⟩
              rw [r4, e1, List.range'_succ]
              simp
            · obtain ⟨r1, r2, r3⟩ := h2 hkr2 l m hk
              refine ⟨r1, r2, ?_⟩
              rw [r3, e2, List.range'_succ]
              simp
        · rcases Nat.eq_or_lt_of_le haj with rfl | hlt
          · exact ⟨l0, m0, hs⟩
          · exact ih2 h j hlt hjr

/-- C20: in `dbConnect` and in `sendMailWithRetry` the wait after the failed attempt number
`k` is `k` times the base delay for every `k` below the retry bound, and there is no wait
after the last failed attempt, which throws; `sendMailWithRetry` resolves with the result of
the first attempt that succeeds, and with the default 3 retries it throws exactly when all 3
attempts fail, with the text `Email sending failed after 3 attempts: ` and the last error. -/
theorem backoff_is_linear (connect : Nat → ConnectOutcome) (retries delay : Nat) (s : DbState)
    (e : String) (send : Nat → SendOutcome) (mailRetries : Nat) :
    (s.conn = none → 1 ≤ retries →
      (s.promise = some (.rejected e) ∨ (s.promise = none ∧ connect s.connects = .rejected e)) →
      (dbConnect connect retries delay s).1 =
        .threw ("MongoDB connection failed after " ++ toString retries ++ " attempts: " ++ e) ∧
      (dbConnect connect retries delay s).2.waits =
        s.waits ++ (List.range' 1 (retries - 1)).map (fun k => delay * k)) ∧
    (∀ k, 1 ≤ k → k ≤ mailRetries →
      (∀ j, 1 ≤ j → j < k → ∃ l m, send j = .failed l m) →
      (∀ l id, send k = .sent l id →
        (sendMailWithRetry send mailRetries).result = some id ∧
        (∃ t, (sendMailWithRetry send mailRetries).settle = .resolved t) ∧
        (sendMailWithRetry send mailRetries).attempts = k ∧
        (sendMailWithRetry send mailRetries).waits =
          (List.range' 1 (k - 1)).map (fun i => 1000 * i)) ∧
      (k = mailRetries → ∀ l m, send k = .failed l m →
        (∃ t, (sendMailWithRetry send mailRetries).settle = .rejected t
          ("Email sending failed after " ++ toString mailRetries ++ " attempts: " ++ m)) ∧
        (sendMailWithRetry send mailRetries).attempts = mailRetries ∧
        (sendMailWithRetry send mailRetries).waits =
          (List.range' 1 (mailRetries - 1)).map (fun i => 1000 * i))) ∧
    ((∃ t msg, (sendMailWithRetry send 3).settle = .rejected t msg) ↔
      ∀ j, 1 ≤ j → j ≤ 3 → ∃ l m, send j = .failed l m) ∧
    ((∀ j, 1 ≤ j → j ≤ 3 → ∃ l m, send j = .failed l m) →
      ∃ t l m, send 3 = .failed l m ∧
        (sendMailWithRetry send 3).settle =
          .rejected t ("Email sending failed after 3 attempts: " ++ m) ∧
        (sendMailWithRetry send 3).waits = [1000, 2000]) := by
  refine ⟨?_, ?_, ?_, ?_⟩
  · intro hc hr hp
    obtain ⟨n, rfl⟩ : ∃ n, retries = n + 1 := ⟨retries - 1, by omega⟩
    unfold dbConnect
    rw [hc]
    simp only []
    rcases hp with hp | ⟨hp, hco⟩
    · rw [dbConnectLoop_rejected connect (n + 1) delay e (n + 1) 1 s hp (by omega) (by omega)]
      simp
    · rw [dbConnectLoop_first connect (n + 1) delay n 1 s hp (by omega),
        dbConnectLoop_rejected connect (n + 1) delay e (n + 1) 1 _ (by simp [hco]) (by omega)
          (by omega)]
      simp
  · intro k hk1 hk hfail
    by_cases hm : 1 ≤ mailRetries
    swap
    · omega
    obtain ⟨h1, -⟩ := sendMailLoop_spec send mailRetries mailRetries 1 0 [] hm (by omega)
    have := h1 k hk1 hk hfail
    simpa [sendMailWithRetry] using this
  · obtain ⟨h1, h2⟩ := sendMailLoop_spec send 3 3 1 0 [] (by omega) (by omega)
    constructor
    · intro h
      exact h2 h
    · intro hall
      obtain ⟨l, m, hm⟩ := hall 3 (by omega) le_rfl
      obtain ⟨⟨t, ht⟩, -, -⟩ := (h1 3 (by omega) le_rfl
        (fun j hj1 hj2 => hall j hj1 (by omega))).2 rfl l m hm
      exact ⟨t, _, ht⟩
  · intro hall
    obtain ⟨h1, -⟩ := sendMailLoop_spec send 3 3 1 0 [] (by omega) (by omega)
    obtain ⟨l, m, hm⟩ := hall 3 (by omega) le_rfl
    obtain ⟨⟨t, ht⟩, -, hw⟩ := (h1 3 (by omega) le_rfl
      (fun j hj1 hj2 => hall j hj1 (by omega))).2 rfl l m hm
    exact ⟨t, l, m, hm, ht, by simpa [sendMailWithRetry] using hw⟩

/-- Witness of C20: with an unreachable store `dbConnect` waits 1000 and 2000 ms and throws;
a mail that fails twice and then succeeds waits 1000 and 2000 ms and resolves with the
result of the third attempt. -/
theorem backoff_is_linear_witness :
    (dbConnect downWorld.connect 3 1000 DbState.fresh).2.waits = [] ++ [1000, 2000] ∧
    (sendMailWithRetry thirdTimeLucky 3).result = some "id-3" ∧
    (sendMailWithRetry thirdTimeLucky 3).waits = [1000, 2000] :=
  have h := backoff_is_linear downWorld.connect 3 1000 DbState.fresh "ECONNREFUSED"
    thirdTimeLucky 3
  have h2 := (h.2.1 3 (by decide) (by decide)
    (fun j hj1 hj2 => by
      have : j = 1 ∨ j = 2 := by omega
      rcases this with rfl | rfl
      · exact ⟨100, "busy", rfl⟩
      · exact ⟨100, "busy", rfl⟩)).1 50 "id-3" rfl
  ⟨(h.1 rfl (by decide) (Or.inr ⟨rfl, rfl⟩)).2, h2.1, h2.2.2.2⟩

theorem runRep_cls_empty (p : Char → Bool) (hi lo : Nat) (cs : List Char) :
    (runRep (Re.run (.cls p)) lo hi cs).any List.isEmpty = true ↔
      lo ≤ cs.length ∧ cs.length ≤ hi ∧ cs.all p = true := by
  induction hi generalizing lo cs with
  | zero =>
    unfold runRep
    cases cs with
    | nil => by_cases h : lo = 0 <;> simp [h]
    | cons d rest => by_cases h : lo = 0 <;> simp [h]
  | succ hi ih =>
    unfold runRep
    cases cs with
    | nil =>
      by_cases h : lo = 0 <;> simp [h, Re.run]
    | cons d rest =>
      have hstep : Re.run (.cls p) (d :: rest) = if p d then [rest] else [] := rfl
      rw [hstep]
      by_cases hd : p d = true
      · have := ih (lo - 1) rest
        by_cases h : lo = 0
        · simp only [h, if_true, hd, List.flatMap_cons, List.flatMap_nil, List.append_nil,
            List.any_append, List.any_cons, List.isEmpty_cons, List.any_nil, Bool.or_false,
            Bool.false_or, List.length_cons, List.all_cons, Bool.true_and]
          rw [h] at this
          rw [this]
          simp
        · simp only [h, if_false, hd, if_true, List.flatMap_cons, List.flatMap_nil,
            List.append_nil, List.nil_append, List.length_cons, List.all_cons, Bool.true_and]
          rw [this]
          constructor
          · rintro ⟨h1, h2, h3⟩; exact ⟨by omega, by omega, h3⟩
          · rintro ⟨h1, h2, h3⟩; exact ⟨by omega, by omega, h3⟩
      · by_cases h : lo = 0 <;> simp [h, hd]

theorem plus_not_phone_char : isPhoneChar '+' = false := by decide

theorem seq_opt_lit_run (c0 : Char) (r : Re) (cs : List Char) :
    (Re.seq (.opt (.lit c0)) r).run cs =
      (match cs with
        | d :: rest => if d = c0 then r.run rest else []
        | [] => []) ++ r.run cs := by
  cases cs with
  | nil => simp [Re.run]
  | cons d rest =>
    by_cases h : d = c0 <;> simp [Re.run, h]

theorem phone_test_iff_shape (p : String) : phonePattern.test p = true ↔ phoneShape p = true := by
  unfold Re.test phonePattern phoneShape
  have hrep : ∀ cs : List Char,
      ((Re.rep (.cls (fun c => isJsDigit c || isJsSpace c || c == '-')) 8 15).run cs).any
        List.isEmpty = true ↔ 8 ≤ cs.length ∧ cs.length ≤ 15 ∧ cs.all isPhoneChar = true :=
    fun cs => runRep_cls_empty _ 15 8 cs
  rw [seq_opt_lit_run]
  cases p.data with
  | nil =>
    simp only [List.nil_append, hrep, Bool.and_eq_true, decide_eq_true_eq]
    tauto
  | cons c rest =>
    by_cases hc : c = '+'
    · subst hc
      simp only [if_true, List.any_append, Bool.or_eq_true, hrep, List.all_cons,
        plus_not_phone_char, Bool.false_and, Bool.false_eq_true, and_false, or_false,
        Bool.and_eq_true, decide_eq_true_eq]
      tauto
    · simp only [hc, if_false, List.nil_append, hrep, Bool.and_eq_true, decide_eq_true_eq]
      tauto

theorem phone_char_bmp (c : Char) (h : isPhoneChar c = true ∨ c = '+') : c.toNat < 65536 := by
  rcases h with h | h
  · simp only [isPhoneChar, isJsDigit, isJsSpace, Bool.or_eq_true, Bool.and_eq_true,
      decide_eq_true_eq, beq_iff_eq] at h
    rcases h with (h | h) | h
    · omega
    · omega
    · subst h; decide
  · subst h; decide

theorem jsLength_bmp (s : String) (h : ∀ c ∈ s.data, c.toNat < 65536) :
    jsLength s = s.data.length := by
  unfold jsLength
  have : ∀ l : List Char, (∀ c ∈ l, c.toNat < 65536) →
      (l.map (fun c => if c.toNat < 65536 then 1 else 2)).sum = l.length := by
    intro l
    induction l with
    | nil => simp
    | cons a l ih =>
      intro hl
      have ha := hl a (by simp)
      have := ih (fun c hc => hl c (by simp [hc]))
      simp only [List.map_cons, List.sum_cons, ha, if_true, List.length_cons, this]
      omega
  exact this _ h

/-- C19 (counterexample): a leading `+` followed by 15 digits is accepted and has 16
characters. -/
theorem plus_and_fifteen_digits_accepted :
    validateString sampleIsEmail numberSchema "number" (.str "+123456789012345") = none ∧
    jsLength "+123456789012345" = 16 := by
  decide

/-- C19 (amended): every phone value accepted by the validator is a string made of an
optional leading `+` followed by 8 to 15 characters, each a digit, a whitespace character or
a hyphen; so it has 8 to 16 characters in total. -/
theorem accepted_phone_shape (isEmail : String → Bool) (v : JsVal)
    (h : validateString isEmail numberSchema "number" v = none) :
    ∃ p, v = .str p ∧ phoneShape p = true ∧ 8 ≤ jsLength p ∧ jsLength p ≤ 16 := by
  have hs := (number_field_iff isEmail v).1 h
  cases v with
  | str p =>
    simp only [specNumberOk] at hs
    have hshape := (phone_test_iff_shape p).1 hs
    refine ⟨p, rfl, hshape, ?_⟩
    unfold phoneShape at hshape
    have hlen : jsLength p = p.data.length := by
      apply jsLength_bmp
      intro c hc
      cases hd : p.data with
      | nil => rw [hd] at hc; simp at hc
      | cons d rest =>
        rw [hd] at hc hshape
        simp only [Bool.and_eq_true, decide_eq_true_eq, List.all_eq_true] at hshape
        by_cases hplus : d = '+'
        · simp only [hplus, if_true] at hshape
          simp only [List.mem_cons] at hc
          rcases hc with rfl | hc
          · exact phone_char_bmp _ (Or.inr hplus)
          · exact phone_char_bmp _ (Or.inl (hshape.2 c hc))
        · simp only [hplus, if_false] at hshape
          exact phone_char_bmp _ (Or.inl (hshape.2 c hc))
    rw [hlen]
    cases hd : p.data with
    | nil => rw [hd] at hshape; simp at hshape
    | cons d rest =>
      rw [hd] at hshape
      simp only [Bool.and_eq_true, decide_eq_true_eq] at hshape
      by_cases hplus : d = '+'
      · simp only [hplus, if_true] at hshape
        simp only [List.length_cons]
        omega
      · simp only [hplus, if_false, List.length_cons] at hshape
        simp only [List.length_cons]
        omega
  | undefined => simp [specNumberOk] at hs
  | null => simp [specNumberOk] at hs
  | other => simp [specNumberOk] at hs

/-- Witness of C19 (amended): the value `+123456789012345`. -/
theorem accepted_phone_shape_witness :
    validateString sampleIsEmail numberSchema "number" (.str "+123456789012345") = none ∧
    ∃ p, JsVal.str "+123456789012345" = .str p ∧ phoneShape p = true ∧ 8 ≤ jsLength p ∧
      jsLength p ≤ 16 :=
  ⟨by decide, accepted_phone_shape sampleIsEmail (.str "+123456789012345") (by decide)⟩

theorem tokensAux_dropWhile (l : List Char) :
    tokensAux (l.dropWhile isJsSpace) [] = tokensAux l [] := by
  induction l with
  | nil => rfl
  | cons c cs ih =>
    by_cases hc : isJsSpace c = true
    · rw [List.dropWhile_cons_of_pos hc, ih]
      simp [tokensAux, hc]
    · rw [List.dropWhile_cons_of_neg hc]

theorem tokensAux_concat_space (l : List Char) (c : Char) (hc : isJsSpace c = true)
    (cur : List Char) : tokensAux (l ++ [c]) cur = tokensAux l cur := by
  induction l generalizing cur with
  | nil =>
    cases cur <;> simp [tokensAux, hc]
  | cons d ds ih =>
    by_cases hd : isJsSpace d = true
    · cases cur <;> simp [tokensAux, hd, ih]
    · simp [tokensAux, hd, ih]

theorem tokensAux_rdropWhile (l : List Char) (cur : List Char) :
    tokensAux (l.rdropWhile isJsSpace) cur = tokensAux l cur := by
  induction l using List.reverseRecOn with
  | nil => simp
  | append_singleton l c ih =>
    by_cases hc : isJsSpace c = true
    · rw [List.rdropWhile_concat_pos _ _ _ hc, ih, tokensAux_concat_space l c hc]
    · rw [List.rdropWhile_concat_neg _ _ _ hc]

theorem tokensAux_ne_empty (l cur : List Char) : ∀ t ∈ tokensAux l cur, t ≠ "" := by
  induction l generalizing cur with
  | nil =>
    intro t ht
    cases cur with
    | nil => simp [tokensAux] at ht
    | cons a cur =>
      simp only [tokensAux, List.isEmpty_cons, Bool.false_eq_true, if_false,
        List.mem_singleton] at ht
      subst ht
      intro h
      have := congrArg String.data h
      simp at this
  | cons c cs ih =>
    intro t ht
    by_cases hc : isJsSpace c = true
    · cases cur with
      | nil =>
        simp only [tokensAux, hc, if_true, List.isEmpty_nil] at ht
        exact ih [] t ht
      | cons a cur =>
        simp only [tokensAux, hc, if_true, List.isEmpty_cons, Bool.false_eq_true, if_false,
          List.mem_cons] at ht
        rcases ht with rfl | ht
        · intro h
          have := congrArg String.data h
          simp at this
        · exact ih [] t ht
    · simp only [tokensAux, hc, if_false] at ht
      exact ih _ t ht

theorem splitSpacesAux_eq_tokensAux (l : List Char) :
    ∀ (cur : List Char) (inSpace : Bool),
      (∀ c, l.getLast? = some c → isJsSpace c = false) →
      (inSpace = true → cur = []) →
      (inSpace = false → cur = [] → ∀ c, l.head? = some c → isJsSpace c = false) →
      (l = [] → cur ≠ []) →
      splitSpacesAux l cur inSpace = tokensAux l cur := by
  induction l with
  | nil =>
    intro cur inSpace _ _ _ h4
    have := h4 rfl
    cases cur with
    | nil => exact absurd rfl this
    | cons a cur => simp [splitSpacesAux, tokensAux]
  | cons c cs ih =>
    intro cur inSpace h1 h2 h3 _
    have hlast : ∀ d, cs.getLast? = some d → isJsSpace d = false := by
      intro d hd
      apply h1
      cases cs with
      | nil => simp at hd
      | cons e es => simpa [List.getLast?_cons_cons] using hd
    by_cases hc : isJsSpace c = true
    · have hcs : cs ≠ [] := by
        rintro rfl
        have := h1 c (by simp)
        rw [hc] at this; cases this
      cases inSpace with
      | true =>
        have hcur := h2 rfl
        subst hcur
        simp only [splitSpacesAux, hc, if_true, tokensAux, List.isEmpty_nil]
        exact ih [] true hlast (fun _ => rfl) (fun h => by cases h) (fun h => absurd h hcs)
      | false =>
        cases cur with
        | nil =>
          have := h3 rfl rfl c (by simp)
          rw [hc] at this; cases this
        | cons a cur =>
          simp only [splitSpacesAux, hc, if_true, tokensAux, List.isEmpty_cons,
            Bool.false_eq_true, if_false, List.cons.injEq, true_and]
          exact ih [] true hlast (fun _ => rfl) (fun h => by cases h) (fun h => absurd h hcs)
    · simp only [splitSpacesAux, hc, if_false, tokensAux]
      exact ih (c :: cur) false hlast (fun h => by cases h) (fun _ h => by cases h)
        (fun _ => by simp)

theorem splitSpacesAux_ne_nil (l cur : List Char) (b : Bool) : splitSpacesAux l cur b ≠ [] := by
  induction l generalizing cur b with
  | nil => simp [splitSpacesAux]
  | cons x xs ih =>
    unfold splitSpacesAux
    split_ifs
    · exact ih _ _
    · exact List.cons_ne_nil _ _
    · exact ih _ _

theorem splitSpaces_jsTrim (s : String) :
    (tokens s = [] → splitSpaces (jsTrim s) = [""]) ∧
    (tokens s ≠ [] → splitSpaces (jsTrim s) = tokens s) := by
  have htrim : (jsTrim s).data = (s.data.dropWhile isJsSpace).rdropWhile isJsSpace := rfl
  have htok : tokensAux ((s.data.dropWhile isJsSpace).rdropWhile isJsSpace) [] = tokens s := by
    rw [tokensAux_rdropWhile, tokensAux_dropWhile]; rfl
  unfold splitSpaces
  rw [htrim]
  by_cases hm : (s.data.dropWhile isJsSpace).rdropWhile isJsSpace = []
  · rw [hm] at htok ⊢
    constructor
    · intro _; rfl
    · intro h; exact absurd htok.symm h
  · have hsplit : splitSpacesAux ((s.data.dropWhile isJsSpace).rdropWhile isJsSpace) [] false
        = tokens s := by
      rw [← htok]
      apply splitSpacesAux_eq_tokensAux
      · intro c hc
        have h1 := List.rdropWhile_last_not isJsSpace (s.data.dropWhile isJsSpace) hm
        rw [List.getLast?_eq_getLast _ hm] at hc
        simp only [Option.some.injEq] at hc
        rw [hc] at h1
        simpa using h1
      · intro h; cases h
      · intro _ _ c hc
        have hpre := List.rdropWhile_prefix isJsSpace (l := s.data.dropWhile isJsSpace)
        obtain ⟨t, ht⟩ := hpre
        have h2 := List.head?_dropWhile_not isJsSpace s.data
        rw [← ht] at h2
        cases hd : (s.data.dropWhile isJsSpace).rdropWhile isJsSpace with
        | nil => exact absurd hd hm
        | cons a as =>
          rw [hd] at hc h2
          simp only [List.head?_cons, Option.some.injEq] at hc
          simp only [List.cons_append, List.head?_cons] at h2
          rw [← hc]; exact h2
      · intro h; exact absurd h hm
    constructor
    · intro h
      rw [h] at hsplit
      exact absurd hsplit (splitSpacesAux_ne_nil _ _ _)
    · intro _; exact hsplit

theorem length_pos_of_ne_empty (t : String) (h : t ≠ "") : 0 < t.length := by
  rcases t with ⟨l⟩
  cases l with
  | nil => exact absurd rfl h
  | cons a l => simp [String.length]

theorem ne_empty_of_length_pos (t : String) (h : 0 < t.length) : t ≠ "" := by
  rintro rfl
  simp at h

theorem intercalate_go_length (acc sep : String) (l : List String) :
    acc.length ≤ (String.intercalate.go acc sep l).length := by
  induction l generalizing acc with
  | nil => simp [String.intercalate.go]
  | cons a l ih =>
    simp only [String.intercalate.go]
    have := ih (acc ++ sep ++ a)
    simp only [String.length_append] at this
    omega

theorem intercalate_ne_empty (sep u : String) (rest : List String) (hu : u ≠ "") :
    sep.intercalate (u :: rest) ≠ "" := by
  apply ne_empty_of_length_pos
  have := intercalate_go_length u sep rest
  have hu2 := length_pos_of_ne_empty u hu
  simp only [String.intercalate]
  omega

theorem truthy_iff (s : String) : truthy s = true ↔ s ≠ "" := by
  simp [truthy]

/-- C16: the lead has `Lead_Source = Website` and `Lead_Status = Not Contacted`; for a name
with a single whitespace-delimited token `First_Name` and `Last_Name` are both the name; for
a name with two or more tokens `First_Name` is the first token and `Last_Name` the other
tokens joined by single spaces; for a non-empty name neither field is empty. -/
theorem lead_name_fields (c : ContactData) :
    (buildLead c).Lead_Source = "Website" ∧ (buildLead c).Lead_Status = "Not Contacted" ∧
    (∀ t, tokens c.name = [t] →
      (buildLead c).First_Name = c.name ∧ (buildLead c).Last_Name = c.name) ∧
    (∀ t u rest, tokens c.name = t :: u :: rest →
      (buildLead c).First_Name = t ∧
      (buildLead c).Last_Name = " ".intercalate (u :: rest)) ∧
    (c.name ≠ "" → (buildLead c).First_Name ≠ "" ∧ (buildLead c).Last_Name ≠ "") := by
  obtain ⟨hA, hB⟩ := splitSpaces_jsTrim c.name
  have hne := tokensAux_ne_empty c.name.data []
  have hlast : truthy "" = false := by decide
  have hmulti : ∀ t u rest, tokens c.name = t :: u :: rest →
      (buildLead c).First_Name = t ∧
      (buildLead c).Last_Name = " ".intercalate (u :: rest) := by
    intro t u rest ht
    have hs := hB (by rw [ht]; exact List.cons_ne_nil _ _)
    rw [ht] at hs
    have hu : u ≠ "" := hne u (by show u ∈ tokens c.name; rw [ht]; simp)
    have htr : truthy (" ".intercalate (u :: rest)) = true :=
      (truthy_iff _).2 (intercalate_ne_empty " " u rest hu)
    simp only [buildLead, hs, List.length_cons, List.headD_cons, List.drop_succ_cons,
      List.drop_zero, htr, if_true]
    simp [htr]
  have hsingle : ∀ t, tokens c.name = [t] →
      (buildLead c).First_Name = c.name ∧ (buildLead c).Last_Name = c.name := by
    intro t ht
    have hs := hB (by rw [ht]; exact List.cons_ne_nil _ _)
    rw [ht] at hs
    simp [buildLead, hs, hlast]
  refine ⟨rfl, rfl, hsingle, hmulti, ?_⟩
  intro hname
  rcases htk : tokens c.name with _ | ⟨t, _ | ⟨u, rest⟩⟩
  · have hs := hA htk
    have : (buildLead c).First_Name = c.name ∧ (buildLead c).Last_Name = c.name := by
      simp [buildLead, hs, hlast]
    rw [this.1, this.2]
    exact ⟨hname, hname⟩
  · obtain ⟨h1, h2⟩ := hsingle t htk
    rw [h1, h2]
    exact ⟨hname, hname⟩
  · obtain ⟨h1, h2⟩ := hmulti t u rest htk
    rw [h1, h2]
    have ht : t ≠ "" := hne t (by show t ∈ tokens c.name; rw [htk]; simp)
    have hu : u ≠ "" := hne u (by show u ∈ tokens c.name; rw [htk]; simp)
    exact ⟨ht, intercalate_ne_empty " " u rest hu⟩

/-- Witness of C16: the name `Mary  Ann Smith`, with two spaces after `Mary`. -/
theorem lead_name_fields_witness :
    tokens "Mary  Ann Smith" = ["Mary", "Ann", "Smith"] ∧
    (buildLead ⟨"Mary  Ann Smith", "m@x.com", "12345678", ""⟩).First_Name = "Mary" ∧
    (buildLead ⟨"Mary  Ann Smith", "m@x.com", "12345678", ""⟩).Last_Name = "Ann Smith" :=
  ⟨by decide,
   (lead_name_fields ⟨"Mary  Ann Smith", "m@x.com", "12345678", ""⟩).2.2.2.1
     "Mary" "Ann" ["Smith"] (by decide)⟩

/-- Witness of C11: the request of the scenario `Jo` in a world where everything works. -/
theorem statuses_of_accepted_response_witness :
    (handler sampleEnv sampleWorld DbState.fresh ZohoState.fresh
      ⟨"POST", some joBody⟩).response.status = 201 ∧
    (handler sampleEnv sampleWorld DbState.fresh ZohoState.fresh
      ⟨"POST", some joBody⟩).response.body.bind Json.emailStatus = some "sent" :=
  ⟨by decide, by
    obtain ⟨j, es, zs, hj, he, -, -, -, -, hsent, -⟩ :=
      statuses_of_accepted_response sampleEnv sampleWorld DbState.fresh ZohoState.fresh
        ⟨"POST", some joBody⟩ (by decide)
    rw [hj]
    simp only [Option.some_bind, he, Option.some.injEq]
    exact hsent ⟨200, 250, by decide, by decide, by decide, by decide⟩⟩

/-- Witness of C18: a GET request. -/
theorem only_post_and_options_are_accepted_witness :
    handler sampleEnv sampleWorld DbState.fresh ZohoState.fresh ⟨"GET", none⟩ =
      ⟨⟨405, corsHeaders, some ⟨false, "Method not allowed", none, none, none, none, none⟩⟩,
        [.responded 405], DbState.fresh⟩ :=
  (only_post_and_options_are_accepted sampleEnv sampleWorld DbState.fresh ZohoState.fresh
    ⟨"GET", none⟩).2.1 (by decide) (by decide)

theorem dbConnect_on_rejected_promise (connect : Nat → ConnectOutcome) (retries delay : Nat)
    (t : DbState) (e : String) (hc : t.conn = none) (hp : t.promise = some (.rejected e))
    (hr : 1 ≤ retries) :
    dbConnect connect retries delay t =
      (.threw ("MongoDB connection failed after " ++ toString retries ++ " attempts: " ++ e),
       { t with waits := t.waits ++
          (List.range' 1 (retries - 1)).map (fun k => delay * k) }) := by
  rcases t with ⟨conn, promise, connects, waits⟩
  simp only [] at hc hp
  subst hc hp
  unfold dbConnect
  exact dbConnectLoop_rejected connect retries delay e retries 1 _ rfl hr (by omega)

/-- C21: the cached promise is never cleared. When the first `mongoose.connect` attempt of a
process is rejected, `dbConnect` throws with that error after its attempts, having invoked
`mongoose.connect` once; `cached.promise` keeps the rejected promise and `cached.conn` stays
`null`; and in every state of that kind every `dbConnect` call throws with the same
underlying error, invokes `mongoose.connect` no more, and leaves the cache as it was. -/
theorem rejected_promise_is_kept (connect : Nat → ConnectOutcome) (retries delay : Nat)
    (s : DbState) (e : String) (hc : s.conn = none) (hp : s.promise = none)
    (hrej : connect s.connects = .rejected e) (hr : 1 ≤ retries) :
    ((dbConnect connect retries delay s).1 =
        .threw ("MongoDB connection failed after " ++ toString retries ++ " attempts: " ++ e) ∧
      (dbConnect connect retries delay s).2.conn = none ∧
      (dbConnect connect retries delay s).2.promise = some (.rejected e) ∧
      (dbConnect connect retries delay s).2.connects = s.connects + 1 ∧
      (dbConnect connect retries delay s).2.waits.length = s.waits.length + (retries - 1)) ∧
    (∀ (t : DbState), t.conn = none → t.promise = some (.rejected e) →
      ∀ (connect2 : Nat → ConnectOutcome) (retries2 delay2 : Nat), 1 ≤ retries2 →
        (dbConnect connect2 retries2 delay2 t).1 =
          .threw ("MongoDB connection failed after " ++ toString retries2 ++
            " attempts: " ++ e) ∧
        (dbConnect connect2 retries2 delay2 t).2.conn = none ∧
        (dbConnect connect2 retries2 delay2 t).2.promise = some (.rejected e) ∧
        (dbConnect connect2 retries2 delay2 t).2.connects = t.connects) := by
  constructor
  · obtain ⟨n, rfl⟩ : ∃ n, retries = n + 1 := ⟨retries - 1, by omega⟩
    rcases s with ⟨conn, promise, connects, waits⟩
    simp only [] at hc hp hrej
    subst hc hp
    have h : dbConnect connect (n + 1) delay ⟨none, none, connects, waits⟩ =
        dbConnect connect (n + 1) delay
          ⟨none, some (connect connects), connects + 1, waits⟩ := by
      unfold dbConnect
      exact dbConnectLoop_first connect (n + 1) delay n 1 _ rfl (by omega)
    rw [h, dbConnect_on_rejected_promise connect (n + 1) delay _ e rfl (by simp [hrej])
      (by omega)]
    simp [hrej]
  · intro t htc htp connect2 retries2 delay2 hr2
    rw [dbConnect_on_rejected_promise connect2 retries2 delay2 t e htc htp hr2]
    exact ⟨rfl, htc, htp, rfl⟩

/-- Witness of C21: the first attempt is refused and every later one would succeed; the
first call throws, and so does the next call in the state it leaves, with no new attempt. -/
theorem rejected_promise_is_kept_witness :
    flakyConnect 0 = .rejected "ECONNREFUSED" ∧
    (dbConnect flakyConnect 3 1000 DbState.fresh).2.promise = some (.rejected "ECONNREFUSED") ∧
    (dbConnect flakyConnect 3 1000 (dbConnect flakyConnect 3 1000 DbState.fresh).2).1 =
      .threw ("MongoDB connection failed after " ++ toString 3 ++ " attempts: " ++
        "ECONNREFUSED") ∧
    (dbConnect flakyConnect 3 1000 (dbConnect flakyConnect 3 1000 DbState.fresh).2).2.connects
      = 1 :=
  have h := rejected_promise_is_kept flakyConnect 3 1000 DbState.fresh "ECONNREFUSED" rfl rfl
    (by decide) (by decide)
  have h2 := h.2 (dbConnect flakyConnect 3 1000 DbState.fresh).2 h.1.2.1 h.1.2.2.1
    flakyConnect 3 1000 (by decide)
  ⟨by decide, h.1.2.2.1, h2.1, h2.2.2.2.trans h.1.2.2.2.1⟩

/-- A mail that resolves at the instant 8000 itself: the response says `sent` when its
completion is handled before the timer of lines 605-610 and `failed` when the timer is. -/
theorem tie_at_deadline_follows_event_loop :
    (handler sampleEnv (tieWorld true) DbState.fresh ZohoState.fresh
      ⟨"POST", some joBody⟩).response.body.bind Json.emailStatus = some "sent" ∧
    (handler sampleEnv (tieWorld false) DbState.fresh ZohoState.fresh
      ⟨"POST", some joBody⟩).response.body.bind Json.emailStatus = some "failed" := by
  decide

end Azalya
